import Mathlib

/-!
Verification of the nanodoc bundle-resolution and document-assembly pipeline.

The Python sources are embedded shallowly: strings are Lean Strings backed by
explicit Char-list computations (Python str operations are re-implemented so
that every definition evaluates inside the kernel), fallible code returns
Except, the filesystem is an explicit association list from path to content,
and the recursive bundle expansion takes an explicit fuel argument that
models the host call stack (Python recursion is bounded only by the
interpreter stack; every nested call here consumes one unit of fuel).

Sources embedded:
  - src/nanodoc/utils.py           (parse_path_and_ranges, apply_ranges)
  - src/nanodoc/extractor.py       (resolve_files, gather_content)
  - src/nanodoc/v2/document.py     (build_document and helpers)
  - src/nanodoc/v2/renderer.py     (render_document, concatenation loop)
  - src/nanodoc/v2/formatter.py    (format_with_line_numbers)
  - src/nanodoc/formatting.py      (apply_style_to_filename, create_header)
  - src/nanodoc/core.py            (process_file, process_all)
The data classes of nanodoc/structures.py and the helpers of nanodoc/data.py
are not present in the source tree (only their tests and callers are); they
are modelled from the specification and marked as such below.
-/

/-- Decidable equality for Except values, used to evaluate concrete runs. -/
instance exceptDecEq {ε α : Type} [DecidableEq ε] [DecidableEq α] : DecidableEq (Except ε α) :=
  fun x y =>
    match x, y with
    | .ok a, .ok b =>
      if h : a = b then .isTrue (h ▸ rfl) else .isFalse (fun hh => h (Except.ok.inj hh))
    | .error a, .error b =>
      if h : a = b then .isTrue (h ▸ rfl) else .isFalse (fun hh => h (Except.error.inj hh))
    | .ok _, .error _ => .isFalse (fun hh => Except.noConfusion hh)
    | .error _, .ok _ => .isFalse (fun hh => Except.noConfusion hh)

/-! ## Python string primitives over Char lists -/

/-- Is p a (list) prefix of l? -/
def isPrefixB : List Char → List Char → Bool
  | [], _ => true
  | _ :: _, [] => false
  | x :: xs, y :: ys => x == y && isPrefixB xs ys

/-- Is suf a (list) suffix of l?  Models Python str.endswith. -/
def isSuffixB (suf : List Char) : List Char → Bool
  | [] => suf.isEmpty
  | c :: t => suf == c :: t || isSuffixB suf t

/-- Does l contain sub as a contiguous substring?  Models Python "sub in s". -/
def containsSub (sub : List Char) : List Char → Bool
  | [] => sub.isEmpty
  | c :: t => isPrefixB sub (c :: t) || containsSub sub t

/-- Python substring test: t in s. -/
def strContains (s t : String) : Bool := containsSub t.data s.data

/-- Python s.endswith(t). -/
def strEndsWith (s t : String) : Bool := isSuffixB t.data s.data

/-- Python "".join(parts): concatenation of a list of strings. -/
def strJoin (parts : List String) : String := ((parts.map String.data).flatten).asString

/-- Split on every occurrence of sep; models Python s.split(sep) for a
one-character separator (the result always has at least one piece). -/
def splitChar (sep : Char) : List Char → List (List Char)
  | [] => [[]]
  | c :: t =>
    if c == sep then [] :: splitChar sep t
    else
      match splitChar sep t with
      | [] => [[c]]
      | h :: r => (c :: h) :: r

/-- Python s.split(sep) for a one-character separator. -/
def pySplitChar (s : String) (sep : Char) : List String :=
  (splitChar sep s.data).map List.asString

/-- Split at the first occurrence of sep; models Python s.split(sep, 1),
returning none when sep does not occur. -/
def splitFirst (sep : Char) : List Char → Option (List Char × List Char)
  | [] => none
  | c :: t =>
    if c == sep then some ([], t)
    else
      match splitFirst sep t with
      | none => none
      | some (a, b) => some (c :: a, b)

/-- Python s.split(sep, 1) when sep occurs in s (none otherwise). -/
def pySplitFirst (s : String) (sep : Char) : Option (String × String) :=
  (splitFirst sep s.data).map (fun p => (p.1.asString, p.2.asString))

/-- Python s.strip(): remove leading and trailing whitespace. -/
def pyStrip (s : String) : String :=
  (((s.data.dropWhile Char.isWhitespace).reverse.dropWhile Char.isWhitespace).reverse).asString

/-- Split a character list into newline-terminated chunks, keeping the
terminators: the chunk structure underlying Python readlines/splitlines. -/
def splitLinesKeep : List Char → List (List Char)
  | [] => []
  | c :: cs =>
    if c == '\n' then ['\n'] :: splitLinesKeep cs
    else
      match splitLinesKeep cs with
      | [] => [[c]]
      | l :: ls => (c :: l) :: ls

/-- Python file.readlines() on the full text: lines with their newline kept. -/
def pyReadlines (s : String) : List String := (splitLinesKeep s.data).map List.asString

/-- Python s.splitlines(): like readlines but with the newline stripped.
Only the newline character is treated as a line break (the nanodoc inputs
never use the other Python line terminators). -/
def pySplitlines (s : String) : List String :=
  (splitLinesKeep s.data).map (fun l => (if l.getLast? == some '\n' then l.dropLast else l).asString)

/-- Decimal digit run to a natural number. -/
def digitsToNatAux (acc : Nat) : List Char → Nat
  | [] => acc
  | c :: t => digitsToNatAux (acc * 10 + (c.toNat - '0'.toNat)) t

/-- Python int(s) on an already-stripped string: optional sign followed by
one or more ASCII digits (digit-group underscores are not modelled; nanodoc
never passes them). Returns none when the string is not numeric. -/
def pyToInt (s : String) : Option Int :=
  match s.data with
  | [] => none
  | '-' :: ds =>
    if !ds.isEmpty && ds.all Char.isDigit then some (-(digitsToNatAux 0 ds : Int)) else none
  | '+' :: ds =>
    if !ds.isEmpty && ds.all Char.isDigit then some ((digitsToNatAux 0 ds : Int)) else none
  | ds =>
    if ds.all Char.isDigit then some ((digitsToNatAux 0 ds : Int)) else none

/-! ## POSIX path helpers (os.path) -/

/-- Characters of the basename: everything after the last slash. -/
def basenameChars (cs : List Char) : List Char := (cs.reverse.takeWhile (· != '/')).reverse

/-- Python os.path.basename for POSIX paths. -/
def pyBasename (s : String) : String := (basenameChars s.data).asString

/-- Python os.path.dirname for POSIX paths. -/
def pyDirname (s : String) : String :=
  let cs := s.data
  let head := cs.take (cs.length - (basenameChars cs).length)
  if head.isEmpty then ""
  else if head.all (· == '/') then head.asString
  else ((head.reverse.dropWhile (· == '/')).reverse).asString

/-- Python os.path.isabs for POSIX paths. -/
def pyIsAbs (s : String) : Bool := isPrefixB ['/'] s.data

/-- Python os.path.join for POSIX paths, two arguments. -/
def pyJoin (a b : String) : String :=
  if pyIsAbs b then b
  else if a == "" then b
  else if strEndsWith a "/" then a ++ b
  else a ++ "/" ++ b

/-- Length (including the dot) of the extension of a basename, following the
os.path.splitext rule that leading dots of the basename never start an
extension. -/
def extLenOf (base : List Char) : Nat :=
  let afterDot := base.reverse.takeWhile (· != '.')
  if afterDot.length == base.length then 0
  else if (base.take (base.length - (afterDot.length + 1))).all (· == '.') then 0
  else afterDot.length + 1

/-- Python os.path.splitext: root and extension. -/
def pySplitext (p : String) : String × String :=
  let cs := p.data
  let base := basenameChars cs
  let extLen := extLenOf base
  ((cs.take (cs.length - extLen)).asString, (cs.drop (cs.length - extLen)).asString)

/-- Python s.lower() (ASCII). -/
def pyLower (s : String) : String := (s.data.map Char.toLower).asString

/-! ## utils.py -/

/-- A parsed line range: 1-indexed start, and either an explicit end bound or
none for the EOF sentinel (Python None). -/
abbrev LRange := Int × Option Int

/-- Shared validation step of parse_path_and_ranges (utils.py lines 120-125):
positive start, and for an explicit end, end >= start unless end == start. -/
def validateRange (start : Int) (endv : Option Int) : Except String LRange :=
  if start < 1 then .error ("Line numbers must be positive: " ++ toString start)
  else
    match endv with
    | some e =>
      if e ≠ start ∧ e < start then
        .error ("End line must be >= start line: " ++ toString start ++ "-" ++ toString e)
      else .ok (start, some e)
    | none => .ok (start, none)

/-- One comma-separated segment of a range specifier (utils.py lines 86-127).
The branch on the first dash mirrors the Python test for a dash followed by
split(dash, 1). -/
def parseSegment (rangePart : String) : Except String LRange :=
  match pySplitFirst rangePart '-' with
  | some (startStr, endStr) =>
    match pyToInt (pyStrip startStr) with
    | none => .error ("Invalid start line number: " ++ startStr)
    | some start =>
      if pyStrip endStr == "" then validateRange start none
      else
        match pyToInt (pyStrip endStr) with
        | none => .error ("Invalid end line number: " ++ endStr)
        | some e => validateRange start (some e)
  | none =>
    match pyToInt (pyStrip rangePart) with
    | none => .error ("Invalid line number: " ++ rangePart)
    | some n => validateRange n (some n)

/-- The segment loop of parse_path_and_ranges (utils.py lines 81-127):
blank segments are skipped, the first invalid segment aborts. -/
def parseRangeSegments : List String → Except String (List LRange)
  | [] => .ok []
  | part :: rest =>
    if pyStrip part == "" then parseRangeSegments rest
    else
      match parseSegment (pyStrip part) with
      | .error m => .error m
      | .ok r =>
        match parseRangeSegments rest with
        | .error m => .error m
        | .ok rs => .ok (r :: rs)

/-- utils.py parse_path_and_ranges: split a path from its optional range
specifier and parse the ranges; no specifier, an empty specifier, or a
specifier with only blank segments give the whole-file default range. -/
def parse_path_and_ranges (filePath : String) : Except String (String × List LRange) :=
  match pySplitFirst filePath ':' with
  | none => .ok (filePath, [((1 : Int), none)])
  | some (path, rangeSpec) =>
    if rangeSpec == "" then .ok (path, [((1 : Int), none)])
    else
      match parseRangeSegments (pySplitChar rangeSpec ',') with
      | .error m => .error m
      | .ok [] => .ok (path, [((1 : Int), none)])
      | .ok rs => .ok (path, rs)

/-- The lines extracted for one range (utils.py lines 158-182): the
single-line special case when start == end, otherwise the half-open slice
with the end bound clamped to the number of lines. -/
def rangeChunk (lines : List String) (r : LRange) : List String :=
  let startIdx := (max 0 (r.1 - 1)).toNat
  if r.2 == some r.1 then
    if startIdx < lines.length then [lines.getD startIdx ""] else []
  else
    let endIdx : Int := match r.2 with | none => (lines.length : Int) | some e => e - 1
    let endIdx2 : Int := min endIdx (lines.length : Int)
    if (startIdx : Int) < endIdx2 then (lines.drop startIdx).take (endIdx2.toNat - startIdx)
    else []

/-- The range loop of apply_ranges: validate each start and concatenate the
extracted chunks in order. -/
def applyRangesCollect (lines : List String) : List LRange → Except String (List String)
  | [] => .ok []
  | r :: rest =>
    if r.1 < 1 then .error ("Line numbers must be positive: " ++ toString r.1)
    else
      match applyRangesCollect lines rest with
      | .error m => .error m
      | .ok chunks => .ok (rangeChunk lines r ++ chunks)

/-- utils.py apply_ranges: empty line lists short-circuit to the empty
string; otherwise extract every range and join. -/
def apply_ranges (lines : List String) (ranges : List LRange) : Except String String :=
  if lines.isEmpty then .ok ""
  else
    match applyRangesCollect lines ranges with
    | .error m => .error m
    | .ok chunks => .ok (strJoin chunks)

/-! ## structures.py (modelled) and extractor.py -/

/-- Modelled from the spec: the ContentDescriptor record of the missing
nanodoc/structures.py (its fields and defaults are pinned down by
tests/test_structures.py and by every use in extractor.py and
v2/document.py): path, ordered ranges, mutable text payload, bundle flag,
and the optional back-reference to the bundle that inlined it. -/
structure FileContent where
  filepath : String
  ranges : List LRange
  content : String := ""
  is_bundle : Bool := false
  original_source : Option String := none
deriving DecidableEq

/-- Modelled from the spec: a Document is the flattened ordered list of
content fragments (the content_items field of the missing structures.py
Document class; the toc and theming fields play no part in document
assembly and are omitted). -/
abbrev Document := List FileContent

/-- A filesystem snapshot: an association list from path to file text. -/
abbrev FS := List (String × String)

/-- Read a file from the snapshot. -/
def fsRead (fs : FS) (p : String) : Option String := fs.lookup p

/-- Bundle classification of resolve_files (extractor.py lines 48-59) with
the default bundle_extensions argument: a .ndoc or .bundle extension, or a
.bundle. infix in the basename. -/
def isBundleFilename (path : String) : Bool :=
  let ext := pyLower (pySplitext path).2
  ext == ".ndoc" || ext == ".bundle" || strContains (pyLower (pyBasename path)) ".bundle."

/-- Errors of the pipeline: Python ValueError (invalid), FileNotFoundError
(notFound), CircularDependencyError (circular), and exhaustion of the fuel
that models the interpreter call stack. -/
inductive PErr where
  | circular (msg : String)
  | notFound (msg : String)
  | invalid (msg : String)
  | fuelOut
deriving DecidableEq

/-- extractor.py resolve_files: parse each path with its optional range
specifier and tag bundles; content stays empty. -/
def resolve_files : List String → Except PErr (List FileContent)
  | [] => .ok []
  | p :: ps =>
    match parse_path_and_ranges p with
    | .error m => .error (.invalid m)
    | .ok (path, ranges) =>
      match resolve_files ps with
      | .error e => .error e
      | .ok rest =>
        .ok ({ filepath := path, ranges := ranges, content := "",
               is_bundle := isBundleFilename path, original_source := none } :: rest)

/-- extractor.py gather_content: read every file (newline-preserving lines)
and apply its ranges; a missing file raises FileNotFoundError. -/
def gather_content (fs : FS) : List FileContent → Except PErr (List FileContent)
  | [] => .ok []
  | fc :: rest =>
    match fsRead fs fc.filepath with
    | none => .error (.notFound ("File not found: " ++ fc.filepath))
    | some text =>
      match apply_ranges (pyReadlines text) fc.ranges with
      | .error m => .error (.invalid m)
      | .ok content =>
        match gather_content fs rest with
        | .error e => .error e
        | .ok rest2 => .ok ({ fc with content := content } :: rest2)

/-! ## v2/document.py -/

/-- Python truthiness of an optional string (None and the empty string are
falsy). -/
def pyTruthy : Option String → Bool
  | none => false
  | some s => !(s == "")

/-- Recognize a directive line (document.py lines 124 and 149): the regex
match of the keyword followed by at least one whitespace character and a
non-empty remainder, on an already stripped line; the group is the
remainder with its leading whitespace removed. -/
def matchDirective (kw : String) (line : String) : Option String :=
  let cs := line.data
  if isPrefixB kw.data cs then
    match cs.drop kw.data.length with
    | [] => none
    | c :: rest =>
      if c.isWhitespace then
        let arg := (c :: rest).dropWhile Char.isWhitespace
        if arg.isEmpty then none else some arg.asString
      else none
  else none

/-- Python sep.join(parts). -/
def strJoinSep (sep : String) (parts : List String) : String :=
  (((parts.intersperse sep).map String.data).flatten).asString

/-- The fragment flushed for a run of literal bundle lines (document.py
lines 127-135, 177-185): the bundle path, an empty ranges list, the lines
joined with a trailing newline, and original_source set to the bundle. -/
def mkLiteralFragment (bundlePath : String) (cur : List String) : FileContent :=
  { filepath := bundlePath, ranges := [], content := strJoinSep "\n" cur ++ "\n",
    is_bundle := false, original_source := some bundlePath }

/-- The error fragment substituted for a missing inline target
(document.py lines 217-227, 245-255). -/
def inlineErrFragment (parentBundle ref : String) : FileContent :=
  { filepath := parentBundle, ranges := [],
    content := "ERROR: Could not find inlined file: " ++ ref ++ "\n",
    is_bundle := false, original_source := some parentBundle }

/-- The error fragment substituted for a missing include target
(document.py lines 285-295, 310-320). -/
def includeErrFragment (parentBundle ref : String) : FileContent :=
  { filepath := parentBundle, ranges := [],
    content := "ERROR: Could not find included file: " ++ ref ++ "\n",
    is_bundle := false, original_source := some parentBundle }

/-- Builder results: the accumulated document on success, and the raised
error together with the document as mutated so far on failure (document
mutations persist across a caught Python exception). -/
abbrev BRes := Except (PErr × Document) Document

mutual

/-- document.py process_content: raise CircularDependencyError when the
path is already on the active branch, append non-bundles unchanged, and
expand bundles with the path pushed onto the active set (the finally-block
removal is implicit: the extended set is only passed downward). -/
def process_content (fuel : Nat) (fs : FS) (fc : FileContent) (doc : Document)
    (processed : List String) (parentBundle : Option String) : BRes :=
  match fuel with
  | 0 => .error (.fuelOut, doc)
  | n + 1 =>
    if fc.filepath ∈ processed then
      .error (.circular ("Circular dependency detected: " ++ fc.filepath ++ " included"
        ++ (if pyTruthy parentBundle then " from " ++ parentBundle.getD "" else "")), doc)
    else if !fc.is_bundle then .ok (doc ++ [fc])
    else
      processBundleLines n fs fc.filepath (pySplitlines fc.content) [] doc
        (fc.filepath :: processed)

/-- The line loop of document.py process_bundle_directives: literal lines
accumulate, a directive first flushes the accumulated run, and the final
run is flushed when the lines are exhausted. -/
def processBundleLines (fuel : Nat) (fs : FS) (bundlePath : String) (lines : List String)
    (cur : List String) (doc : Document) (processed : List String) : BRes :=
  match fuel with
  | 0 => .error (.fuelOut, doc)
  | n + 1 =>
    match lines with
    | [] => .ok (if cur.isEmpty then doc else doc ++ [mkLiteralFragment bundlePath cur])
    | line :: rest =>
      match matchDirective "@inline" (pyStrip line) with
      | some arg =>
        let doc2 := if cur.isEmpty then doc else doc ++ [mkLiteralFragment bundlePath cur]
        match process_inline_directive n fs arg (pyDirname bundlePath) doc2 processed
            bundlePath with
        | .error e => .error e
        | .ok doc3 => processBundleLines n fs bundlePath rest [] doc3 processed
      | none =>
        match matchDirective "@include" (pyStrip line) with
        | some arg =>
          let doc2 := if cur.isEmpty then doc else doc ++ [mkLiteralFragment bundlePath cur]
          match process_include_directive n fs arg (pyDirname bundlePath) doc2 processed
              bundlePath with
          | .error e => .error e
          | .ok doc3 => processBundleLines n fs bundlePath rest [] doc3 processed
        | none => processBundleLines n fs bundlePath rest (cur ++ [line]) doc processed

/-- document.py process_inline_directive: resolve the target relative to
the bundle directory, gather it, force original_source to the parent
bundle, recurse; a FileNotFoundError anywhere in the try block is replaced
by a single inline error fragment. -/
def process_inline_directive (fuel : Nat) (fs : FS) (inlinePath : String) (basePath : String)
    (doc : Document) (processed : List String) (parentBundle : String) : BRes :=
  match fuel with
  | 0 => .error (.fuelOut, doc)
  | n + 1 =>
    let resolvedPath := if pyIsAbs inlinePath then inlinePath else pyJoin basePath inlinePath
    match resolve_files [resolvedPath] with
    | .error e => .error (e, doc)
    | .ok inlinedFiles =>
      if inlinedFiles.isEmpty then .ok (doc ++ [inlineErrFragment parentBundle inlinePath])
      else
        let attempt : BRes :=
          match gather_content fs inlinedFiles with
          | .error e => .error (e, doc)
          | .ok items =>
            processItems n fs (items.map (fun c => { c with original_source := some parentBundle }))
              doc processed (some parentBundle)
        match attempt with
        | .error (.notFound _, doc2) => .ok (doc2 ++ [inlineErrFragment parentBundle inlinePath])
        | r => r

/-- document.py process_include_directive: like inline but the gathered
content keeps its own identity (original_source untouched); only the
cycle-detection parent is propagated. -/
def process_include_directive (fuel : Nat) (fs : FS) (includePath : String) (basePath : String)
    (doc : Document) (processed : List String) (parentBundle : String) : BRes :=
  match fuel with
  | 0 => .error (.fuelOut, doc)
  | n + 1 =>
    let resolvedPath := if pyIsAbs includePath then includePath else pyJoin basePath includePath
    match resolve_files [resolvedPath] with
    | .error e => .error (e, doc)
    | .ok includedFiles =>
      if includedFiles.isEmpty then .ok (doc ++ [includeErrFragment parentBundle includePath])
      else
        let attempt : BRes :=
          match gather_content fs includedFiles with
          | .error e => .error (e, doc)
          | .ok items => processItems n fs items doc processed (some parentBundle)
        match attempt with
        | .error (.notFound _, doc2) => .ok (doc2 ++ [includeErrFragment parentBundle includePath])
        | r => r

/-- The loop over gathered items shared by build_document and the two
directive handlers: process each item in order, threading the document. -/
def processItems (fuel : Nat) (fs : FS) (items : List FileContent) (doc : Document)
    (processed : List String) (parentBundle : Option String) : BRes :=
  match fuel with
  | 0 => .error (.fuelOut, doc)
  | n + 1 =>
    match items with
    | [] => .ok doc
    | i :: rest =>
      match process_content n fs i doc processed parentBundle with
      | .error e => .error e
      | .ok doc2 => processItems n fs rest doc2 processed parentBundle

end

/-- document.py build_document: process every top-level item into an
initially empty document with an empty active set. -/
def build_document (fuel : Nat) (fs : FS) (fileContents : List FileContent) : BRes :=
  processItems fuel fs fileContents [] [] none

/-- Stages 2-4 of v2/cli.py process_v2: resolve paths, gather content,
build the document. -/
def buildFromPaths (fuel : Nat) (fs : FS) (paths : List String) : BRes :=
  match resolve_files paths with
  | .error e => .error (e, [])
  | .ok fcs =>
    match gather_content fs fcs with
    | .error e => .error (e, [])
    | .ok items => build_document fuel fs items

/-! ## v2/renderer.py and v2/formatter.py -/

/-- The effective source of a fragment: original_source when truthy, else
the own path (renderer.py line 75). -/
def effectiveSource (item : FileContent) : String :=
  if pyTruthy item.original_source then item.original_source.getD "" else item.filepath

/-- The header-emission condition of renderer.py lines 50-53: not inlined
(falsy original_source) and a filepath different from the previous
effective source (always different when there is no previous fragment). -/
def headerCond (prev : Option String) (item : FileContent) : Bool :=
  !(pyTruthy item.original_source)
    && (match prev with | none => true | some p => !(item.filepath == p))

/-- Python format {:4d}: decimal, right-aligned to width 4. -/
def py4d (n : Int) : String :=
  let s := toString n
  if s.length < 4 then (List.replicate (4 - s.length) ' ').asString ++ s else s

/-- v2/formatter.py format_with_line_numbers with the default start number
and number format: each newline-split piece prefixed with a right-aligned
counter and a pipe. -/
def format_with_line_numbers (content : String) : String :=
  strJoinSep "\n"
    ((pySplitChar content '\n').enum.map (fun p => py4d ((p.1 : Int) + 1) ++ " | " ++ p.2))

/-- The separator of renderer.py lines 55-56: one newline unless the parts
list is empty or its last element already ends in a blank line. -/
def sepParts : Option String → List String
  | some lp => if strEndsWith lp "\n\n" then [] else ["\n"]
  | none => []

/-- The parts appended for one fragment by the concatenation loop of
renderer.py render_document (lines 47-72): optional separator and header,
the content (optionally line-numbered), and a trailing newline when the
content lacks one. -/
def renderItemParts (lastPart : Option String) (prev : Option String) (item : FileContent)
    (includeLineNumbers : Bool) : List String :=
  let headerParts :=
    if headerCond prev item then
      sepParts lastPart ++ ["# " ++ pyBasename item.filepath ++ "\n\n"]
    else []
  let contentToAdd :=
    if includeLineNumbers then format_with_line_numbers item.content else item.content
  headerParts ++ [contentToAdd] ++ (if strEndsWith contentToAdd "\n" then [] else ["\n"])

/-- The fragment loop of render_document: thread the parts list (the
separator test looks at its last element) and the previous effective
source. -/
def renderFold (includeLineNumbers : Bool) :
    List FileContent → List String → Option String → List String
  | [], parts, _ => parts
  | item :: rest, parts, prev =>
    renderFold includeLineNumbers rest
      (parts ++ renderItemParts parts.getLast? prev item includeLineNumbers)
      (some (effectiveSource item))

/-- renderer.py render_document with include_toc false and no rich
theming (the TOC block and the rich-formatting pass sit outside the
concatenation loop under verification and are not modelled). -/
def render_document (doc : Document) (includeLineNumbers : Bool) : String :=
  strJoin (renderFold includeLineNumbers doc [] none)

/-! ## formatting.py -/

/-- Python str.title() (ASCII): an alphabetic character is uppercased after
a non-alphabetic character and lowercased otherwise. -/
def pyTitleAux : Bool → List Char → List Char
  | _, [] => []
  | prevAlpha, c :: t =>
    if c.isAlpha then (if prevAlpha then c.toLower else c.toUpper) :: pyTitleAux true t
    else c :: pyTitleAux false t

/-- Python str.title() on a string. -/
def pyTitle (s : String) : String := (pyTitleAux false s.data).asString

/-- formatting.py apply_style_to_filename: the nice style strips the
extension, turns dashes and underscores into spaces, title-cases, and
appends the original filename in parentheses; other styles fall back to
the filename or the full path. -/
def apply_style_to_filename (filename : String) (style : Option String)
    (originalPath : Option String) : String :=
  if !(pyTruthy style) || style == some "filename" || !(pyTruthy originalPath) then filename
  else if style == some "path" then originalPath.getD ""
  else if style == some "nice" then
    let base := (pySplitext filename).1
    let niceName := pyTitle ((base.data.map (fun c => if c == '-' || c == '_' then ' ' else c)).asString)
    niceName ++ " (" ++ filename ++ ")"
  else filename

/-- Value-symbol table of formatting.py to_roman, already lowercased as the
Python function lowers its result. -/
def romanPairs : List (Nat × String) :=
  [(1000, "m"), (900, "cm"), (500, "d"), (400, "cd"), (100, "c"), (90, "xc"), (50, "l"),
   (40, "xl"), (10, "x"), (9, "ix"), (5, "v"), (4, "iv"), (1, "i")]

/-- formatting.py to_roman on positive numbers. -/
def to_roman (num : Nat) : String :=
  (romanPairs.foldl
    (fun (acc : String × Nat) p => (acc.1 ++ strJoin (List.replicate (acc.2 / p.1) p.2), acc.2 % p.1))
    ("", num)).1

/-- formatting.py format_pos: the sequence prefix for a zero-based
position. -/
def format_pos (style : Option String) (position : Nat) : String :=
  if !(pyTruthy style) then ""
  else
    let n := position + 1
    if style == some "numerical" then toString (n : Int) ++ ". "
    else if style == some "letter" then (Char.ofNat (96 + ((n - 1) % 26) + 1)).toString ++ ". "
    else if style == some "roman" then to_roman n ++ ". "
    else ""

/-- formatting.py apply_sequence_to_text. -/
def apply_sequence_to_text (text : String) (sequence : Option String) (seqIndex : Nat) : String :=
  let p := format_pos sequence seqIndex
  if !(p == "") then p ++ text else text

/-- formatting.py create_header (the unused border-character parameter is
dropped): style the basename of the original path when one is given, then
apply the sequence prefix. -/
def create_header (text : String) (sequence : Option String) (seqIndex : Nat)
    (style : Option String) (originalPath : Option String) : String :=
  let styledText :=
    if pyTruthy originalPath then
      apply_style_to_filename (pyBasename (originalPath.getD "")) style originalPath
    else text
  apply_sequence_to_text styledText sequence seqIndex

/-! ## core.py (v1 pipeline) with the modelled data.py helpers -/

/-- Modelled from the spec: the ContentItem record of the missing
nanodoc/data.py, reduced to the fields process_file consults (file path and
ordered ranges; the v1 range end uses the X sentinel for EOF, modelled as
none). -/
structure ContentItem where
  file_path : String
  ranges : List LRange
deriving DecidableEq

/-- Modelled from the spec: normalize_line_range of the missing data.py
resolves the EOF sentinel to the last line of the file (ranges in the v1
pipeline are 1-indexed with inclusive ends). -/
def normalizeLineRange (r : LRange) (maxLines : Int) : Int × Int := (r.1, r.2.getD maxLines)

/-- Modelled from the spec: is_full_file of the missing data.py recognizes
the whole-file range, line 1 through the EOF sentinel. -/
def isFullFileRange (r : LRange) : Bool := r.1 == 1 && r.2 == none

/-- Python range(a, b) over integers. -/
def intRange (a b : Int) : List Int :=
  if a < b then (List.range (b - a).toNat).map (fun k => a + k) else []

/-- Python list indexing with negative-index wraparound (out-of-range
reads, which the guarded callers never perform, default to the empty
string). -/
def pyIndex (l : List String) (i : Int) : String :=
  if 0 ≤ i then l.getD i.toNat "" else l.getD (l.length - (-i).toNat) ""

/-- Insert one numbered line behind every earlier line with a key less
than or equal to its own. -/
def insertByNum (x : Int × String) : List (Int × String) → List (Int × String)
  | [] => [x]
  | y :: t => if y.1 ≤ x.1 then y :: insertByNum x t else x :: y :: t

/-- Stable ascending sort by line number, modelling the Python stable
list.sort with key x[0] in core.py line 69. -/
def sortByNum : List (Int × String) → List (Int × String)
  | [] => []
  | x :: t => insertByNum x (sortByNum t)

/-- core.py process_file: collect the requested lines with their original
line numbers, sort them, and prepend the optional header; per-file
numbering uses the original line number, global numbering the running
counter. Returns the text and the number of emitted lines. -/
def process_file (fs : FS) (item : ContentItem) (lineNumberMode : Option String)
    (lineCounter : Nat) (showHeader : Bool) (sequence : Option String) (seqIndex : Nat)
    (style : Option String) : String × Nat :=
  match fsRead fs item.file_path with
  | none => ("Error: File not found: " ++ item.file_path ++ "\n", 0)
  | some text =>
    let allLines := pyReadlines text
    let collected := item.ranges.flatMap (fun r =>
      let se := normalizeLineRange r (allLines.length : Int)
      (intRange (se.1 - 1) se.2).filterMap (fun i =>
        if i < (allLines.length : Int) then some (i + 1, pyIndex allLines i) else none))
    let lwn := sortByNum collected
    let header :=
      if showHeader then
        "\n" ++ create_header (pyBasename item.file_path) sequence seqIndex style
          (some item.file_path) ++ "\n\n"
      else ""
    let body := strJoin (lwn.enum.map (fun p =>
      (match lineNumberMode with
       | some m =>
         if m == "all" then py4d ((lineCounter : Int) + (p.1 : Int) + 1) ++ ": "
         else if m == "file" then py4d p.2.1 ++ ": "
         else ""
       | none => "") ++ p.2.2))
    let out := header ++ body
    let out :=
      if (match item.ranges with | [r] => isFullFileRange r | _ => false) then out
      else out ++ "\n"
    (out, lwn.length)

/-- Append an item to its path group, preserving first-seen group order
(the insertion-ordered dict of core.py lines 135-139). -/
def addToGroups (gs : List (String × List ContentItem)) (it : ContentItem) :
    List (String × List ContentItem) :=
  match gs with
  | [] => [(it.file_path, [it])]
  | g :: rest =>
    if g.1 == it.file_path then (g.1, g.2 ++ [it]) :: rest else g :: addToGroups rest it

/-- Group content items by file path in first-seen order. -/
def groupByPath (items : List ContentItem) : List (String × List ContentItem) :=
  items.foldl addToGroups []

/-- The inner item loop of core.py process_all: reset the counter per item
in per-file mode, process, and accumulate the emitted line count. -/
def processGroupItems (fs : FS) (items : List ContentItem) (mode : Option String)
    (counter : Nat) (showHeader : Bool) (sequence : Option String) (fileIndex : Nat)
    (style : Option String) : String × Nat :=
  match items with
  | [] => ("", counter)
  | it :: rest =>
    let counter2 := if mode == some "file" then 0 else counter
    let r := process_file fs it mode counter2 showHeader sequence fileIndex style
    let r2 := processGroupItems fs rest mode (counter2 + r.2) showHeader sequence fileIndex style
    (r.1 ++ r2.1, r2.2)

/-- The group loop of core.py process_all, with the group position as the
sequence index. -/
def processGroupsAux (fs : FS) (gs : List (String × List ContentItem)) (mode : Option String)
    (counter : Nat) (showHeader : Bool) (sequence : Option String) (style : Option String)
    (fileIndex : Nat) : String :=
  match gs with
  | [] => ""
  | g :: rest =>
    let r := processGroupItems fs g.2 mode counter showHeader sequence fileIndex style
    r.1 ++ processGroupsAux fs rest mode r.2 showHeader sequence style (fileIndex + 1)

/-- core.py process_all with generate_toc false (the TOC branch prepends a
separately generated block and is not part of the claims under
verification). -/
def process_all (fs : FS) (contentItems : List ContentItem) (lineNumberMode : Option String)
    (showHeader : Bool) (sequence : Option String) (style : Option String) : String :=
  processGroupsAux fs (groupByPath contentItems) lineNumberMode 0 showHeader sequence style 0

/-! ## Auxiliary definitions for the claim statements -/

/-- Boolean error test for Except values. -/
def exceptIsError {ε α : Type} : Except ε α → Bool
  | .ok _ => false
  | .error _ => true

/-- The claim-side description of an invalid range segment: a non-numeric
start or end, a line number at most zero, or an explicit end below the
start (end equal to start, the single-line form, is not an error). -/
def claimBadSegment (seg : String) : Bool :=
  match pySplitFirst seg '-' with
  | some (a, b) =>
    match pyToInt (pyStrip a) with
    | none => true
    | some s =>
      if pyStrip b == "" then decide (s ≤ 0)
      else
        match pyToInt (pyStrip b) with
        | none => true
        | some e => decide (s ≤ 0) || decide (e ≤ 0) || decide (e < s)
  | none =>
    match pyToInt (pyStrip seg) with
    | none => true
    | some n => decide (n ≤ 0)

/-- Consume the text up to and including the first occurrence of sub,
returning the remainder; none when sub does not occur. -/
def afterFirst (sub : List Char) : List Char → Option (List Char)
  | [] => if sub.isEmpty then some [] else none
  | c :: t => if isPrefixB sub (c :: t) then some ((c :: t).drop sub.length) else afterFirst sub t

/-- Do the tokens occur in order (each after the previous match) in the
character list? -/
def containsInOrderChars (cs : List Char) : List String → Bool
  | [] => true
  | t :: ts =>
    match afterFirst t.data cs with
    | none => false
    | some rest => containsInOrderChars rest ts

/-- Do the tokens occur in the string, in the order given? -/
def containsInOrder (s : String) (tokens : List String) : Bool :=
  containsInOrderChars s.data tokens

/-- Well-formed ranges: every start is at least one and every explicit end
is at least its start. -/
def RangesOk (rs : List LRange) : Prop :=
  ∀ r ∈ rs, 1 ≤ r.1 ∧ ∀ e : Int, r.2 = some e → r.1 ≤ e

/-- The target invariant on document fragments: never a bundle, and any
ranges present are well-formed. -/
def GoodFrag (f : FileContent) : Prop := f.is_bundle = false ∧ RangesOk f.ranges

/-- The invariant over a whole document. -/
def AllGood (doc : Document) : Prop := ∀ f ∈ doc, GoodFrag f

/-- The document carried by a builder result, also on the error side. -/
def docOf : BRes → Document
  | .ok d => d
  | .error (_, d) => d


/-! ## Behaviour checks mirroring the repository test suite -/

example : parse_path_and_ranges "file.txt" = .ok ("file.txt", [(1, none)]) := by decide
example : parse_path_and_ranges "file.txt:10-20" = .ok ("file.txt", [(10, some 20)]) := by decide
example : parse_path_and_ranges "file.txt:10-" = .ok ("file.txt", [(10, none)]) := by decide
example : parse_path_and_ranges "file.txt:10" = .ok ("file.txt", [(10, some 10)]) := by decide
example : parse_path_and_ranges "file.txt:10 - 20, 30 - 40"
    = .ok ("file.txt", [(10, some 20), (30, some 40)]) := by decide
example : parse_path_and_ranges "file.txt:" = .ok ("file.txt", [(1, none)]) := by decide
example : (parse_path_and_ranges "file.txt:invalid").isOk = false := by decide
example : (parse_path_and_ranges "file.txt:-10").isOk = false := by decide
example : (parse_path_and_ranges "file.txt:20-10").isOk = false := by decide
example : apply_ranges ["Line 1\n", "Line 2\n", "Line 3\n", "Line 4\n", "Line 5\n"]
    [(2, some 4)] = .ok "Line 2\nLine 3\n" := by decide
example : apply_ranges ["Line 1\n", "Line 2\n", "Line 3\n", "Line 4\n", "Line 5\n"]
    [(1, some 2), (4, some 5)] = .ok "Line 1\nLine 4\n" := by decide
example : apply_ranges ["Line 1\n", "Line 2\n", "Line 3\n", "Line 4\n", "Line 5\n"]
    [(3, none)] = .ok "Line 3\nLine 4\nLine 5\n" := by decide
example : apply_ranges ["Line 1\n", "Line 2\n", "Line 3\n", "Line 4\n", "Line 5\n"]
    [(3, some 3)] = .ok "Line 3\n" := by decide
example : (apply_ranges ["Line 1\n", "Line 2\n", "Line 3\n"] [(-1, some 2)]).isOk = false := by
  decide
example : apply_ranges [] [(1, some 3)] = .ok "" := by decide
example : apply_ranges ["Line 1\n", "Line 2\n", "Line 3\n"] [(10, some 20)] = .ok "" := by decide

/-! ## Helper lemmas: strings and ranges -/

/-- Rebuilding a string from its characters is the identity. -/
theorem asString_data (s : String) : s.data.asString = s := rfl

/-- The newline-keeping line split flattens back to the original characters. -/
theorem splitLinesKeep_flatten : ∀ cs : List Char, (splitLinesKeep cs).flatten = cs := by
  intro cs
  induction cs with
  | nil => rfl
  | cons c cs ih =>
    simp only [splitLinesKeep]
    cases hc : (c == '\n') with
    | true =>
      have : c = '\n' := by simpa using hc
      subst this
      simp [List.flatten, ih]
    | false =>
      cases hsp : splitLinesKeep cs with
      | nil =>
        have : cs = [] := by rw [← ih, hsp]; rfl
        subst this
        simp [List.flatten]
      | cons l ls =>
        have : (l :: ls).flatten = cs := by rw [← hsp, ih]
        simp only [List.flatten] at this ⊢
        simp [this]

/-- Joining the readlines decomposition reproduces the file content. -/
theorem strJoin_readlines (s : String) : strJoin (pyReadlines s) = s := by
  unfold strJoin pyReadlines
  rw [List.map_map]
  have : (String.data ∘ List.asString) = id := by
    funext l
    rfl
  rw [this, List.map_id, splitLinesKeep_flatten]
  rfl

/-- A non-empty string has a non-empty readlines decomposition. -/
theorem pyReadlines_ne_nil (s : String) (h : s ≠ "") : pyReadlines s ≠ [] := by
  unfold pyReadlines
  intro hc
  apply h
  have hflat := splitLinesKeep_flatten s.data
  rw [List.map_eq_nil_iff] at hc
  rw [hc] at hflat
  have : s.data = [] := hflat.symm
  cases s
  simp_all

/-- EOF-sentinel ranges extract from the start line through the last line. -/
theorem rangeChunk_eof (lines : List String) (s : Int) (hs : 1 ≤ s) :
    rangeChunk lines (s, none) = lines.drop (s - 1).toNat := by
  have hmax : max 0 (s - 1) = s - 1 := by omega
  simp only [rangeChunk, hmax]
  have hne : ((none : Option Int) == some s) = false := rfl
  rw [hne]
  simp only [Bool.false_eq_true, if_false, min_self]
  by_cases hcond : (((s - 1).toNat : Int) < (lines.length : Int))
  · rw [if_pos hcond]
    have hlen : (s - 1).toNat ≤ lines.length := by omega
    have : (lines.length : Int).toNat - (s - 1).toNat = (lines.drop (s - 1).toNat).length := by
      simp [List.length_drop]
    rw [this, List.take_length]
  · rw [if_neg hcond]
    symm
    apply List.drop_eq_nil_of_le
    omega

/-- Single-line ranges (start equal to end) extract exactly that line when
it exists. -/
theorem rangeChunk_single (lines : List String) (s : Int) (hs : 1 ≤ s) :
    rangeChunk lines (s, some s)
      = if (s - 1).toNat < lines.length then [lines.getD ((s - 1).toNat) ""] else [] := by
  have hmax : max 0 (s - 1) = s - 1 := by omega
  simp only [rangeChunk, hmax]
  have heq : ((some s : Option Int) == some s) = true := by simp
  rw [heq]
  simp

/-- Explicit ranges with start strictly below end extract the 1-indexed
half-open interval of lines, clamped to the available lines. -/
theorem rangeChunk_interval (lines : List String) (s e : Int) (hs : 1 ≤ s) (hse : s < e) :
    rangeChunk lines (s, some e) = (lines.take (e - 1).toNat).drop (s - 1).toNat := by
  have hne : ((some e : Option Int) == some s) = false := by
    rw [beq_eq_false_iff_ne]
    intro hc
    have := Option.some.inj hc
    omega
  have hmax : max 0 (s - 1) = s - 1 := by omega
  simp only [rangeChunk, hmax, hne]
  simp only [Bool.false_eq_true, if_false]
  by_cases hcond : (((s - 1).toNat : Int) < min (e - 1) (lines.length : Int))
  · rw [if_pos hcond]
    rw [List.drop_take]
    rcases le_or_lt (e - 1) (lines.length : Int) with hle | hgt
    · congr 1
      omega
    · rw [List.take_of_length_le, List.take_of_length_le]
      · simp [List.length_drop]; omega
      · simp [List.length_drop]; omega
  · rw [if_neg hcond]
    symm
    apply List.drop_eq_nil_of_le
    simp only [List.length_take]
    omega

/-- With positive starts the range loop collects every chunk in order. -/
theorem applyRangesCollect_ok (lines : List String) :
    ∀ rs : List LRange, (∀ r ∈ rs, 1 ≤ r.1) →
      applyRangesCollect lines rs = .ok (rs.flatMap (rangeChunk lines)) := by
  intro rs
  induction rs with
  | nil => intro _; rfl
  | cons r rest ih =>
    intro h
    have hr : 1 ≤ r.1 := h r (by simp)
    simp only [applyRangesCollect]
    rw [if_neg (by omega)]
    rw [ih (fun x hx => h x (List.mem_cons_of_mem _ hx))]
    simp [List.flatMap_cons]

/-- With positive starts and a non-empty file, apply_ranges never raises
and returns the joined chunks. -/
theorem apply_ranges_ok (lines : List String) (rs : List LRange)
    (h1 : ∀ r ∈ rs, 1 ≤ r.1) (h2 : lines ≠ []) :
    apply_ranges lines rs = .ok (strJoin (rs.flatMap (rangeChunk lines))) := by
  unfold apply_ranges
  rw [if_neg (by simpa using h2)]
  rw [applyRangesCollect_ok lines rs h1]

/-- The range loop errors exactly when some range has a non-positive
start. -/
theorem applyRangesCollect_err (lines : List String) :
    ∀ rs : List LRange,
      exceptIsError (applyRangesCollect lines rs) = rs.any (fun r => decide (r.1 < 1)) := by
  intro rs
  induction rs with
  | nil => rfl
  | cons r rest ih =>
    simp only [applyRangesCollect, List.any_cons]
    by_cases hr : r.1 < 1
    · rw [if_pos hr]
      simp [exceptIsError, hr]
    · rw [if_neg hr]
      have hd : (decide (r.1 < 1)) = false := by simpa using hr
      rw [hd, Bool.false_or]
      cases hrec : applyRangesCollect lines rest with
      | error m => rw [hrec] at ih; simpa [exceptIsError] using ih
      | ok chunks => rw [hrec] at ih; simpa [exceptIsError] using ih

/-! ## Claim C10 -/

/-- Claim C10: applying ranges to an empty line list returns the empty
string for every ranges list, including ranges with start below one; and
apply_ranges raises an invalid-range error exactly when the line list is
non-empty and some range has start below one, so range validation is
silently skipped for empty files. -/
theorem claim_C10 :
    (∀ ranges : List LRange, apply_ranges [] ranges = .ok "")
    ∧ (∀ (lines : List String) (ranges : List LRange),
        exceptIsError (apply_ranges lines ranges)
          = (!lines.isEmpty && ranges.any (fun r => decide (r.1 < 1)))) := by
  constructor
  · intro ranges
    rfl
  · intro lines ranges
    cases lines with
    | nil => simp [apply_ranges, exceptIsError]
    | cons l t =>
      simp only [apply_ranges, List.isEmpty_cons, Bool.not_false, Bool.true_and]
      rw [← applyRangesCollect_err (l :: t) ranges]
      cases applyRangesCollect (l :: t) ranges with
      | error m => rfl
      | ok chunks => rfl

/-! ## Claim C4 -/

/-- Claim C4: for positive starts the range applier extracts exactly line
start when start equals end, the 1-indexed half-open interval for an
explicit larger end, and the suffix from start for the EOF sentinel; ranges
beyond the available lines clamp silently, never raising, and the chunks of
multiple ranges concatenate in the order given. -/
theorem claim_C4 :
    (∀ (lines : List String) (s : Int), 1 ≤ s →
      rangeChunk lines (s, some s)
        = if (s - 1).toNat < lines.length then [lines.getD ((s - 1).toNat) ""] else [])
    ∧ (∀ (lines : List String) (s e : Int), 1 ≤ s → s < e →
      rangeChunk lines (s, some e) = (lines.take (e - 1).toNat).drop (s - 1).toNat)
    ∧ (∀ (lines : List String) (s : Int), 1 ≤ s →
      rangeChunk lines (s, none) = lines.drop (s - 1).toNat)
    ∧ (∀ (lines : List String) (ranges : List LRange),
        (∀ r ∈ ranges, 1 ≤ r.1) → lines ≠ [] →
      apply_ranges lines ranges = .ok (strJoin (ranges.flatMap (rangeChunk lines)))) :=
  ⟨rangeChunk_single, rangeChunk_interval, rangeChunk_eof, apply_ranges_ok⟩

/-- Witness for claim C4 at a concrete file and range. -/
theorem claim_C4_witness :
    rangeChunk ["a\n", "b\n", "c\n"] (2, some 3)
      = (["a\n", "b\n", "c\n"].take ((3 : Int) - 1).toNat).drop ((2 : Int) - 1).toNat ∧
    apply_ranges ["a\n", "b\n", "c\n"] [(2, some 3), (1, some 1)]
      = .ok (strJoin ([((2 : Int), some (3 : Int)), (1, some 1)].flatMap
          (rangeChunk ["a\n", "b\n", "c\n"]))) :=
  ⟨claim_C4.2.1 ["a\n", "b\n", "c\n"] 2 3 (by decide) (by decide),
   claim_C4.2.2.2 ["a\n", "b\n", "c\n"] [(2, some 3), (1, some 1)]
     (by intro r hr; fin_cases hr <;> decide) (by decide)⟩

/-! ## Claim C1 -/

/-- Claim C1 counterexample: the file content X, Y on two lines has two
lines, the parser turns file:1-2 into the range (1, 2), and applying that
range returns only the first line, not the full content, because the end
bound is exclusive. -/
theorem claim_C1_counterexample :
    (pyReadlines "X\nY\n").length = 2
    ∧ parse_path_and_ranges "file:1-2" = .ok ("file", [(1, some 2)])
    ∧ apply_ranges (pyReadlines "X\nY\n") [(1, some 2)] = .ok "X\n"
    ∧ "X\n" ≠ "X\nY\n" :=
  ⟨rfl, by decide, by decide, by decide⟩

/-- Claim C1 amended: the full-file round trip holds for the EOF form
file:1- on every non-empty file, and for file:1-N exactly when N = 1; for
N at least 2 the exclusive end bound drops the last line, reproducing only
lines 1 through N - 1. -/
theorem claim_C1_amended (content : String) (h : content ≠ "") :
    parse_path_and_ranges "file:1-" = .ok ("file", [(1, none)])
    ∧ apply_ranges (pyReadlines content) [(1, none)] = .ok content
    ∧ ((pyReadlines content).length = 1 →
        apply_ranges (pyReadlines content)
          [(1, some ((pyReadlines content).length : Int))] = .ok content)
    ∧ (2 ≤ (pyReadlines content).length →
        apply_ranges (pyReadlines content)
          [(1, some ((pyReadlines content).length : Int))]
          = .ok (strJoin ((pyReadlines content).take ((pyReadlines content).length - 1)))) := by
  have hne := pyReadlines_ne_nil content h
  have hpos : ∀ r ∈ [((1 : Int), (none : Option Int))], 1 ≤ r.1 := by
    intro r hr
    fin_cases hr
    decide
  refine ⟨by decide, ?_, ?_, ?_⟩
  · rw [apply_ranges_ok _ _ hpos hne]
    simp only [List.flatMap_cons, List.flatMap_nil, List.append_nil]
    rw [rangeChunk_eof _ 1 (by decide)]
    norm_num
    exact strJoin_readlines content
  · intro h1
    obtain ⟨l, hl⟩ := List.length_eq_one.mp h1
    have hj : strJoin [l] = content := by
      rw [← hl]
      exact strJoin_readlines content
    rw [h1, hl]
    rw [apply_ranges_ok _ _ (by intro r hr; fin_cases hr; decide) (by simp)]
    simp only [List.flatMap_cons, List.flatMap_nil, List.append_nil, Nat.cast_one]
    rw [rangeChunk_single [l] 1 (by decide)]
    refine congrArg Except.ok ?_
    simpa using hj
  · intro h2
    have hlt : (1 : Int) < ((pyReadlines content).length : Int) := by
      omega
    rw [apply_ranges_ok _ _ (by intro r hr; fin_cases hr; norm_num) hne]
    simp only [List.flatMap_cons, List.flatMap_nil, List.append_nil]
    rw [rangeChunk_interval _ 1 _ (by decide) hlt]
    have hcast : ((((pyReadlines content).length : Int)) - 1).toNat
        = (pyReadlines content).length - 1 := by omega
    rw [hcast]
    norm_num

/-- Witness for claim C1 amended at a concrete two-line file. -/
theorem claim_C1_amended_witness :
    parse_path_and_ranges "file:1-" = .ok ("file", [(1, none)])
    ∧ apply_ranges (pyReadlines "X\nY\n") [(1, none)] = .ok "X\nY\n"
    ∧ ((pyReadlines "X\nY\n").length = 1 →
        apply_ranges (pyReadlines "X\nY\n")
          [(1, some ((pyReadlines "X\nY\n").length : Int))] = .ok "X\nY\n")
    ∧ (2 ≤ (pyReadlines "X\nY\n").length →
        apply_ranges (pyReadlines "X\nY\n")
          [(1, some ((pyReadlines "X\nY\n").length : Int))]
          = .ok (strJoin ((pyReadlines "X\nY\n").take ((pyReadlines "X\nY\n").length - 1)))) :=
  claim_C1_amended "X\nY\n" (by decide)

/-! ## Claim C8 -/

/-- A first-occurrence split misses when the separator is absent. -/
theorem splitFirst_not_mem (sep : Char) :
    ∀ cs : List Char, sep ∉ cs → splitFirst sep cs = none := by
  intro cs
  induction cs with
  | nil => intro _; rfl
  | cons c t ih =>
    intro h
    rw [List.mem_cons, not_or] at h
    simp only [splitFirst]
    rw [if_neg (by simp; exact fun hc => h.1 hc.symm)]
    rw [ih h.2]

/-- A first-occurrence split cuts at the first separator occurrence. -/
theorem splitFirst_append (sep : Char) :
    ∀ p : List Char, sep ∉ p → ∀ q : List Char,
      splitFirst sep (p ++ sep :: q) = some (p, q) := by
  intro p
  induction p with
  | nil =>
    intro _ q
    simp [splitFirst]
  | cons c t ih =>
    intro h q
    rw [List.mem_cons, not_or] at h
    simp only [List.cons_append, splitFirst]
    rw [if_neg (by simp; exact fun hc => h.1 hc.symm)]
    rw [List.append_eq, ih h.2 q]

/-- One parsed segment errors exactly when the claim-side description
calls it bad. -/
theorem parseSegment_err (seg : String) :
    exceptIsError (parseSegment seg) = claimBadSegment seg := by
  unfold parseSegment claimBadSegment
  cases pySplitFirst seg '-' with
  | none =>
    dsimp only
    cases pyToInt (pyStrip seg) with
    | none => rfl
    | some n =>
      dsimp only
      simp only [validateRange]
      by_cases hn : n < 1
      · rw [if_pos hn]
        simp [exceptIsError]
        omega
      · rw [if_neg hn]
        have : ¬(n ≠ n ∧ n < n) := by omega
        rw [if_neg this]
        simp [exceptIsError]
        omega
  | some ab =>
    obtain ⟨a, b⟩ := ab
    dsimp only
    cases pyToInt (pyStrip a) with
    | none => rfl
    | some s =>
      dsimp only
      by_cases hb : pyStrip b == ""
      · rw [if_pos hb, if_pos hb]
        simp only [validateRange]
        by_cases hs : s < 1
        · rw [if_pos hs]
          simp [exceptIsError]
          omega
        · rw [if_neg hs]
          simp [exceptIsError]
          omega
      · rw [if_neg hb, if_neg hb]
        cases pyToInt (pyStrip b) with
        | none => rfl
        | some e =>
          dsimp only
          simp only [validateRange]
          by_cases hs : s < 1
          · rw [if_pos hs]
            simp [exceptIsError]
            omega
          · rw [if_neg hs]
            by_cases ho : e ≠ s ∧ e < s
            · rw [if_pos ho]
              simp [exceptIsError]
              omega
            · rw [if_neg ho]
              simp [exceptIsError]
              omega

/-- The segment loop errors exactly when some non-blank stripped segment
is bad in the claim-side sense. -/
theorem parseRangeSegments_err (parts : List String) :
    exceptIsError (parseRangeSegments parts)
      = parts.any (fun part => !(pyStrip part == "") && claimBadSegment (pyStrip part)) := by
  induction parts with
  | nil => rfl
  | cons part rest ih =>
    simp only [parseRangeSegments, List.any_cons]
    by_cases hb : pyStrip part == ""
    · rw [if_pos hb, hb]
      simp only [Bool.not_true, Bool.false_and, Bool.false_or]
      exact ih
    · rw [if_neg hb]
      rw [show (pyStrip part == "") = false from by simpa using hb]
      simp only [Bool.not_false, Bool.true_and]
      cases hps : parseSegment (pyStrip part) with
      | error m =>
        have := parseSegment_err (pyStrip part)
        rw [hps] at this
        simp only [exceptIsError] at this
        rw [← this]
        simp [exceptIsError]
      | ok r =>
        have := parseSegment_err (pyStrip part)
        rw [hps] at this
        simp only [exceptIsError] at this
        rw [← this]
        simp only [Bool.false_or]
        cases hrec : parseRangeSegments rest with
        | error m => rw [hrec] at ih; simpa [exceptIsError] using ih
        | ok rs => rw [hrec] at ih; simpa [exceptIsError] using ih

/-- Claim C8: a path without a range specifier, or with an empty one,
parses to the unchanged path and the single whole-file default range; and
with a specifier present, parsing raises a format error exactly when some
non-blank comma segment is bad in the claim-side sense (non-numeric start
or end, a line number at most zero, or an explicit end below start). -/
theorem claim_C8 :
    (∀ p : String, ':' ∉ p.data → parse_path_and_ranges p = .ok (p, [(1, none)]))
    ∧ (∀ p : String, ':' ∉ p.data →
        parse_path_and_ranges (p ++ ":") = .ok (p, [(1, none)]))
    ∧ (∀ p spec : String, ':' ∉ p.data →
        exceptIsError (parse_path_and_ranges (p ++ ":" ++ spec))
          = (pySplitChar spec ',').any
              (fun part => !(pyStrip part == "") && claimBadSegment (pyStrip part))) := by
  refine ⟨?_, ?_, ?_⟩
  · intro p hp
    unfold parse_path_and_ranges pySplitFirst
    rw [splitFirst_not_mem ':' p.data hp]
    rfl
  · intro p hp
    unfold parse_path_and_ranges pySplitFirst
    have hdata : (p ++ ":").data = p.data ++ ':' :: [] := by
      rw [String.data_append]
    rw [hdata, splitFirst_append ':' p.data hp []]
    simp only [Option.map, asString_data]
    rfl
  · intro p spec hp
    unfold parse_path_and_ranges pySplitFirst
    have hdata : (p ++ ":" ++ spec).data = p.data ++ ':' :: spec.data := by
      rw [String.data_append, String.data_append, List.append_assoc]
      rfl
    rw [hdata, splitFirst_append ':' p.data hp spec.data]
    simp only [Option.map, asString_data]
    by_cases hs : spec == ""
    · have hspec : spec = "" := by simpa using hs
      subst hspec
      rfl
    · rw [if_neg (by simpa using hs)]
      rw [← parseRangeSegments_err (pySplitChar spec ',')]
      cases parseRangeSegments (pySplitChar spec ',') with
      | error m => rfl
      | ok rs => cases rs with
        | nil => rfl
        | cons r rest => rfl

/-- Witness for claim C8 at concrete arguments. -/
theorem claim_C8_witness :
    parse_path_and_ranges "file.txt" = .ok ("file.txt", [(1, none)])
    ∧ parse_path_and_ranges ("file.txt" ++ ":") = .ok ("file.txt", [(1, none)])
    ∧ exceptIsError (parse_path_and_ranges ("file.txt" ++ ":" ++ "1-2,bad"))
        = (pySplitChar "1-2,bad" ',').any
            (fun part => !(pyStrip part == "") && claimBadSegment (pyStrip part)) :=
  ⟨claim_C8.1 "file.txt" (by decide),
   claim_C8.2.1 "file.txt" (by decide),
   claim_C8.2.2 "file.txt" "1-2,bad" (by decide)⟩

/-! ## Claims C2 and C3: bundle expansion scenarios -/

/-- Claim C2: entering a path already on the active recursion branch
raises the circular-dependency error naming that path and the including
parent; concretely, two bundles including each other (each read through
resolve and gather) fail with an error naming both files, before the fuel
that models the call stack is consumed; and a bundle expanded on two
sibling branches of the same parent does not raise, because the active
set is extended only along the recursion branch. -/
theorem claim_C2 :
    (∀ (fuel : Nat) (fs : FS) (fc : FileContent) (doc : Document)
        (processed : List String) (parent : String),
      fc.filepath ∈ processed →
      process_content (fuel + 1) fs fc doc processed (some parent)
        = .error (.circular ("Circular dependency detected: " ++ fc.filepath ++ " included"
            ++ (if pyTruthy (some parent) then " from " ++ parent else "")), doc))
    ∧ buildFromPaths 50 [("/a.ndoc", "@include /b.ndoc"), ("/b.ndoc", "@include /a.ndoc")]
        ["/a.ndoc"]
        = .error (.circular "Circular dependency detected: /a.ndoc included from /b.ndoc", [])
    ∧ strContains "Circular dependency detected: /a.ndoc included from /b.ndoc" "/a.ndoc" = true
    ∧ strContains "Circular dependency detected: /a.ndoc included from /b.ndoc" "/b.ndoc" = true
    ∧ buildFromPaths 50
        [("/t.ndoc", "@include /a.ndoc\n@include /a.ndoc"), ("/a.ndoc", "hello")] ["/t.ndoc"]
        = .ok [{ filepath := "/a.ndoc", ranges := [], content := "hello\n", is_bundle := false,
                 original_source := some "/a.ndoc" },
               { filepath := "/a.ndoc", ranges := [], content := "hello\n", is_bundle := false,
                 original_source := some "/a.ndoc" }] := by
  refine ⟨?_, by decide, by decide, by decide, by decide⟩
  intro fuel fs fc doc processed parent hmem
  simp only [process_content]
  rw [if_pos hmem]
  rfl

/-- Witness for claim C2: the cycle check fires on a concrete active set. -/
theorem claim_C2_witness :
    process_content 5 []
        ({ filepath := "/x.ndoc", ranges := [], content := "", is_bundle := true,
             original_source := none } : FileContent) [] ["/x.ndoc"] (some "/p.ndoc")
      = .error (.circular ("Circular dependency detected: /x.ndoc included"
          ++ (if pyTruthy (some "/p.ndoc") then " from " ++ "/p.ndoc" else "")), []) :=
  claim_C2.1 4 [] _ [] ["/x.ndoc"] "/p.ndoc" (by decide)

/-- A missing inline target never aborts the build: when the resolved
target parses and every resolved descriptor is absent from the
filesystem, the inline handler returns successfully with the document
extended by exactly one inline error fragment. -/
theorem inline_missing_recovers (n : Nat) (fs : FS) (inlinePath basePath : String)
    (doc : Document) (processed : List String) (parentBundle : String)
    (files : List FileContent)
    (hres : resolve_files
      [if pyIsAbs inlinePath then inlinePath else pyJoin basePath inlinePath] = .ok files)
    (hmiss : ∀ fc ∈ files, fsRead fs fc.filepath = none) :
    process_inline_directive (n + 1) fs inlinePath basePath doc processed parentBundle
      = .ok (doc ++ [inlineErrFragment parentBundle inlinePath]) := by
  simp only [process_inline_directive]
  rw [hres]
  cases files with
  | nil => rfl
  | cons fc rest =>
    have hg : gather_content fs (fc :: rest)
        = .error (.notFound ("File not found: " ++ fc.filepath)) := by
      simp only [gather_content]
      rw [hmiss fc (by simp)]
    dsimp only
    rw [hg]
    rfl

/-- A missing include target never aborts the build: the include handler
returns successfully with the document extended by exactly one include
error fragment. -/
theorem include_missing_recovers (n : Nat) (fs : FS) (includePath basePath : String)
    (doc : Document) (processed : List String) (parentBundle : String)
    (files : List FileContent)
    (hres : resolve_files
      [if pyIsAbs includePath then includePath else pyJoin basePath includePath] = .ok files)
    (hmiss : ∀ fc ∈ files, fsRead fs fc.filepath = none) :
    process_include_directive (n + 1) fs includePath basePath doc processed parentBundle
      = .ok (doc ++ [includeErrFragment parentBundle includePath]) := by
  simp only [process_include_directive]
  rw [hres]
  cases files with
  | nil => rfl
  | cons fc rest =>
    have hg : gather_content fs (fc :: rest)
        = .error (.notFound ("File not found: " ++ fc.filepath)) := by
      simp only [gather_content]
      rw [hmiss fc (by simp)]
    dsimp only
    rw [hg]
    rfl

/-- After an inline directive with a missing target, the bundle-line loop
continues with the remaining lines: the accumulated literal run is
flushed, exactly one inline error fragment is appended in place of the
missing content, and processing proceeds on the rest. -/
theorem bundle_inline_missing_continues (n : Nat) (fs : FS) (bp line : String)
    (rest cur : List String) (doc : Document) (processed : List String) (arg : String)
    (files : List FileContent)
    (hdir : matchDirective "@inline" (pyStrip line) = some arg)
    (hres : resolve_files
      [if pyIsAbs arg then arg else pyJoin (pyDirname bp) arg] = .ok files)
    (hmiss : ∀ fc ∈ files, fsRead fs fc.filepath = none) :
    processBundleLines (n + 2) fs bp (line :: rest) cur doc processed
      = processBundleLines (n + 1) fs bp rest []
          ((if cur.isEmpty then doc else doc ++ [mkLiteralFragment bp cur])
            ++ [inlineErrFragment bp arg]) processed := by
  conv_lhs => rw [processBundleLines]
  rw [hdir]
  dsimp only
  rw [inline_missing_recovers n fs arg (pyDirname bp)
    (if cur.isEmpty then doc else doc ++ [mkLiteralFragment bp cur]) processed bp files
    hres hmiss]

/-- After an include directive with a missing target, the bundle-line
loop continues with the remaining lines, appending exactly one include
error fragment. -/
theorem bundle_include_missing_continues (n : Nat) (fs : FS) (bp line : String)
    (rest cur : List String) (doc : Document) (processed : List String) (arg : String)
    (files : List FileContent)
    (hnotinline : matchDirective "@inline" (pyStrip line) = none)
    (hdir : matchDirective "@include" (pyStrip line) = some arg)
    (hres : resolve_files
      [if pyIsAbs arg then arg else pyJoin (pyDirname bp) arg] = .ok files)
    (hmiss : ∀ fc ∈ files, fsRead fs fc.filepath = none) :
    processBundleLines (n + 2) fs bp (line :: rest) cur doc processed
      = processBundleLines (n + 1) fs bp rest []
          ((if cur.isEmpty then doc else doc ++ [mkLiteralFragment bp cur])
            ++ [includeErrFragment bp arg]) processed := by
  conv_lhs => rw [processBundleLines]
  rw [hnotinline]
  dsimp only
  rw [hdir]
  dsimp only
  rw [include_missing_recovers n fs arg (pyDirname bp)
    (if cur.isEmpty then doc else doc ++ [mkLiteralFragment bp cur]) processed bp files
    hres hmiss]

/-- Claim C3: for every bundle with an @inline or @include directive
whose target file does not exist, document building does not abort: the
directive handler returns successfully with exactly one error-text
fragment appended in place of the missing content, and the bundle-line
loop continues with the remaining lines (stated universally for both
directives over every filesystem, document, active set and line list);
in particular a bundle "Header\n@inline missing.txt\nFooter\n" builds a
Document with exactly the three fragments "Header\n", an error fragment
containing "Could not find inlined file", and "Footer\n", and the
@include variant builds the analogous three fragments. -/
theorem claim_C3 :
    (∀ (n : Nat) (fs : FS) (inlinePath basePath : String) (doc : Document)
        (processed : List String) (parentBundle : String) (files : List FileContent),
      resolve_files [if pyIsAbs inlinePath then inlinePath else pyJoin basePath inlinePath]
        = .ok files →
      (∀ fc ∈ files, fsRead fs fc.filepath = none) →
      process_inline_directive (n + 1) fs inlinePath basePath doc processed parentBundle
        = .ok (doc ++ [inlineErrFragment parentBundle inlinePath]))
    ∧ (∀ (n : Nat) (fs : FS) (includePath basePath : String) (doc : Document)
        (processed : List String) (parentBundle : String) (files : List FileContent),
      resolve_files [if pyIsAbs includePath then includePath else pyJoin basePath includePath]
        = .ok files →
      (∀ fc ∈ files, fsRead fs fc.filepath = none) →
      process_include_directive (n + 1) fs includePath basePath doc processed parentBundle
        = .ok (doc ++ [includeErrFragment parentBundle includePath]))
    ∧ (∀ (n : Nat) (fs : FS) (bp line : String) (rest cur : List String) (doc : Document)
        (processed : List String) (arg : String) (files : List FileContent),
      matchDirective "@inline" (pyStrip line) = some arg →
      resolve_files [if pyIsAbs arg then arg else pyJoin (pyDirname bp) arg] = .ok files →
      (∀ fc ∈ files, fsRead fs fc.filepath = none) →
      processBundleLines (n + 2) fs bp (line :: rest) cur doc processed
        = processBundleLines (n + 1) fs bp rest []
            ((if cur.isEmpty then doc else doc ++ [mkLiteralFragment bp cur])
              ++ [inlineErrFragment bp arg]) processed)
    ∧ (∀ (n : Nat) (fs : FS) (bp line : String) (rest cur : List String) (doc : Document)
        (processed : List String) (arg : String) (files : List FileContent),
      matchDirective "@inline" (pyStrip line) = none →
      matchDirective "@include" (pyStrip line) = some arg →
      resolve_files [if pyIsAbs arg then arg else pyJoin (pyDirname bp) arg] = .ok files →
      (∀ fc ∈ files, fsRead fs fc.filepath = none) →
      processBundleLines (n + 2) fs bp (line :: rest) cur doc processed
        = processBundleLines (n + 1) fs bp rest []
            ((if cur.isEmpty then doc else doc ++ [mkLiteralFragment bp cur])
              ++ [includeErrFragment bp arg]) processed)
    ∧ buildFromPaths 50 [("/b.ndoc", "Header\n@inline missing.txt\nFooter\n")] ["/b.ndoc"]
      = .ok [{ filepath := "/b.ndoc", ranges := [], content := "Header\n", is_bundle := false,
               original_source := some "/b.ndoc" },
             { filepath := "/b.ndoc", ranges := [],
               content := "ERROR: Could not find inlined file: missing.txt\n",
               is_bundle := false, original_source := some "/b.ndoc" },
             { filepath := "/b.ndoc", ranges := [], content := "Footer\n", is_bundle := false,
               original_source := some "/b.ndoc" }]
    ∧ strContains "ERROR: Could not find inlined file: missing.txt\n"
        "Could not find inlined file" = true
    ∧ buildFromPaths 50 [("/c.ndoc", "Header\n@include missing.txt\nFooter\n")] ["/c.ndoc"]
      = .ok [{ filepath := "/c.ndoc", ranges := [], content := "Header\n", is_bundle := false,
               original_source := some "/c.ndoc" },
             { filepath := "/c.ndoc", ranges := [],
               content := "ERROR: Could not find included file: missing.txt\n",
               is_bundle := false, original_source := some "/c.ndoc" },
             { filepath := "/c.ndoc", ranges := [], content := "Footer\n", is_bundle := false,
               original_source := some "/c.ndoc" }]
    ∧ strContains "ERROR: Could not find included file: missing.txt\n"
        "Could not find included file" = true :=
  ⟨inline_missing_recovers, include_missing_recovers, bundle_inline_missing_continues,
   bundle_include_missing_continues, by decide, by decide, by decide, by decide⟩

/-- Witness for claim C3: the inline handler recovers on a concrete
missing target over the empty filesystem. -/
theorem claim_C3_witness :
    process_inline_directive 4 [] "missing.txt" "/" [] [] "/b.ndoc"
      = .ok ([] ++ [inlineErrFragment "/b.ndoc" "missing.txt"]) :=
  claim_C3.1 3 [] "missing.txt" "/" [] [] "/b.ndoc"
    [({ filepath := "/missing.txt", ranges := [((1 : Int), none)], content := "",
        is_bundle := false, original_source := none } : FileContent)]
    (by decide) (by decide)

/-! ## Claim C5: counterexample -/

/-- Claim C5 counterexample: a bundle with one literal line builds a
document whose only fragment has an empty ranges list, refuting the
invariant that every ranges list is non-empty. -/
theorem claim_C5_counterexample :
    buildFromPaths 50 [("/b.ndoc", "Hello")] ["/b.ndoc"]
      = .ok [{ filepath := "/b.ndoc", ranges := [], content := "Hello\n", is_bundle := false,
               original_source := some "/b.ndoc" }]
    ∧ ({ filepath := "/b.ndoc", ranges := [], content := "Hello\n", is_bundle := false,
         original_source := some "/b.ndoc" } : FileContent).ranges = [] :=
  ⟨by decide, rfl⟩

/-! ## Claim C7: the v1 end-to-end line numbering scenario -/

/-- Claim C7: processing a.txt (two lines X, Y) and b.txt (one line Z)
through the v1 pipeline with per-file numbering and headers on yields a
header for a.txt, then lines 1: X and 2: Y, then a header for b.txt, then
1: Z, in that order. -/
theorem claim_C7 :
    process_all [("a.txt", "X\nY\n"), ("b.txt", "Z\n")]
      [{ file_path := "a.txt", ranges := [(1, none)] },
       { file_path := "b.txt", ranges := [(1, none)] }]
      (some "file") true none none
      = "\na.txt\n\n   1: X\n   2: Y\n\nb.txt\n\n   1: Z\n"
    ∧ containsInOrder "\na.txt\n\n   1: X\n   2: Y\n\nb.txt\n\n   1: Z\n"
        ["a.txt", "1: X", "2: Y", "b.txt", "1: Z"] = true :=
  ⟨by decide, by decide⟩

/-! ## Claim C6: counterexample -/

/-- Claim C6 counterexample: the renderer emits the header as a hash mark
with the plain basename, not the nice-stylized title the claim describes;
on a one-fragment document the output carries no stylized title. -/
theorem claim_C6_counterexample :
    render_document [({ filepath := "my-file.txt", ranges := [(1, none)],
                        content := "hi\n", is_bundle := false,
                        original_source := none } : FileContent)] false
      = "# my-file.txt\n\nhi\n"
    ∧ apply_style_to_filename "my-file.txt" (some "nice") (some "my-file.txt")
      = "My File (my-file.txt)"
    ∧ strContains "# my-file.txt\n\nhi\n" "My File (my-file.txt)" = false :=
  ⟨by decide, by decide, by decide⟩

/-! ## String suffix and substring characterizations -/

/-- Boolean prefix test as an existential decomposition. -/
theorem isPrefixB_iff (p : List Char) : ∀ l : List Char,
    isPrefixB p l = true ↔ ∃ t, l = p ++ t := by
  induction p with
  | nil =>
    intro l
    simp [isPrefixB]
  | cons x xs ih =>
    intro l
    cases l with
    | nil =>
      simp [isPrefixB]
    | cons y ys =>
      simp only [isPrefixB, Bool.and_eq_true, beq_iff_eq, ih ys, List.cons_append,
        List.cons.injEq]
      constructor
      · rintro ⟨rfl, t, rfl⟩
        exact ⟨t, rfl, rfl⟩
      · rintro ⟨t, rfl, rfl⟩
        exact ⟨rfl, t, rfl⟩

/-- Boolean suffix test as an existential decomposition. -/
theorem isSuffixB_iff (suf : List Char) : ∀ l : List Char,
    isSuffixB suf l = true ↔ ∃ t, l = t ++ suf := by
  intro l
  induction l with
  | nil =>
    simp only [isSuffixB, List.isEmpty_iff]
    constructor
    · rintro rfl
      exact ⟨[], rfl⟩
    · rintro ⟨t, ht⟩
      have := List.append_eq_nil.mp ht.symm
      exact this.2
  | cons c t ih =>
    simp only [isSuffixB, Bool.or_eq_true, beq_iff_eq, ih]
    constructor
    · rintro (rfl | ⟨u, rfl⟩)
      · exact ⟨[], rfl⟩
      · exact ⟨c :: u, rfl⟩
    · rintro ⟨u, hu⟩
      cases u with
      | nil => exact Or.inl hu.symm
      | cons d du =>
        right
        rw [List.cons_append] at hu
        exact ⟨du, (List.cons.injEq _ _ _ _).mp hu |>.2⟩

/-- Boolean substring test as an existential decomposition. -/
theorem containsSub_iff (sub : List Char) : ∀ l : List Char,
    containsSub sub l = true ↔ ∃ a b, l = a ++ sub ++ b := by
  intro l
  induction l with
  | nil =>
    simp only [containsSub, List.isEmpty_iff]
    constructor
    · rintro rfl
      exact ⟨[], [], rfl⟩
    · rintro ⟨a, b, h⟩
      have h1 := List.append_eq_nil.mp h.symm
      exact (List.append_eq_nil.mp h1.1).2
  | cons c t ih =>
    simp only [containsSub, Bool.or_eq_true, ih, isPrefixB_iff]
    constructor
    · rintro (⟨u, hu⟩ | ⟨a, b, rfl⟩)
      · exact ⟨[], u, by simpa using hu⟩
      · exact ⟨c :: a, b, rfl⟩
    · rintro ⟨a, b, hab⟩
      cases a with
      | nil =>
        left
        exact ⟨b, by simpa using hab⟩
      | cons d du =>
        right
        rw [List.cons_append, List.cons_append] at hab
        have := (List.cons.injEq _ _ _ _).mp hab
        exact ⟨du, b, this.2⟩

/-- The character data of a joined string list is the flattened data. -/
theorem strJoin_data (parts : List String) :
    (strJoin parts).data = (parts.map String.data).flatten := rfl

/-! ## Claim C9 -/

/-- The emitted parts of one fragment always join to a string ending in a
newline. -/
theorem strEndsWith_parts_newline (H : List String) (c : String) :
    strEndsWith (strJoin (H ++ [c] ++ (if strEndsWith c "\n" = true then [] else ["\n"]))) "\n"
      = true := by
  by_cases hce : strEndsWith c "\n" = true
  · rw [if_pos hce]
    rw [strEndsWith, isSuffixB_iff] at hce ⊢
    obtain ⟨t, ht⟩ := hce
    refine ⟨(H.map String.data).flatten ++ t, ?_⟩
    rw [strJoin_data]
    simp [ht, List.append_assoc]
  · rw [if_neg hce]
    rw [strEndsWith, isSuffixB_iff]
    refine ⟨(H.map String.data).flatten ++ c.data, ?_⟩
    rw [strJoin_data]
    simp [List.append_assoc]

/-- A substring of the left part is a substring of the whole. -/
theorem containsSub_left (sub l r : List Char) (h : containsSub sub l = true) :
    containsSub sub (l ++ r) = true := by
  obtain ⟨a, b, rfl⟩ := (containsSub_iff _ _).mp h
  exact (containsSub_iff _ _).mpr ⟨a, b ++ r, by simp⟩

/-- Two adjacent newlines around a junction form a blank line. -/
theorem containsSub_junction (t rest : List Char) :
    containsSub ['\n', '\n'] (t ++ '\n' :: '\n' :: rest) = true := by
  refine (containsSub_iff _ _).mpr ⟨t, rest, ?_⟩
  simp

/-- Claim C9: the text emitted for every fragment ends with a newline even
when the fragment content lacks one; and at the junction between two
consecutive non-inlined fragments from different sources the rendered
text contains a blank line (the text before the junction ends in a
newline, and the renderer either sees a blank line there already or
inserts a separator newline before the header). -/
theorem claim_C9 :
    (∀ (lastPart prev : Option String) (item : FileContent) (ln : Bool),
      strEndsWith (strJoin (renderItemParts lastPart prev item ln)) "\n" = true)
    ∧ (∀ (lp : String) (prevItem item : FileContent) (ln : Bool),
        pyTruthy item.original_source = false →
        pyTruthy prevItem.original_source = false →
        item.filepath ≠ prevItem.filepath →
        strEndsWith lp "\n" = true →
        strContains
          (lp ++ strJoin (renderItemParts (some lp) (some (effectiveSource prevItem)) item ln))
          "\n\n" = true) := by
  constructor
  · intro lastPart prev item ln
    exact strEndsWith_parts_newline _ _
  · intro lp prevItem item ln h1 h2 hne hlast
    have hcond : headerCond (some (effectiveSource prevItem)) item = true := by
      unfold headerCond effectiveSource
      rw [h1, h2]
      simp [hne]
    unfold renderItemParts
    rw [hcond]
    simp only [if_true]
    rw [strContains]
    rw [String.data_append, strJoin_data]
    by_cases hlp2 : strEndsWith lp "\n\n" = true
    · obtain ⟨t, ht⟩ := (isSuffixB_iff _ _).mp hlp2
      apply containsSub_left
      exact (containsSub_iff _ _).mpr ⟨t, [], by rw [ht]; simp⟩
    · obtain ⟨t, ht⟩ := (isSuffixB_iff _ _).mp hlast
      have hsep : sepParts (some lp) = ["\n"] := by
        simp [sepParts, hlp2]
      rw [hsep, ht]
      simp only [List.cons_append, List.nil_append, List.map_cons, List.map_append,
        List.flatten_cons, List.flatten_append, List.append_assoc]
      exact containsSub_junction t _

/-- Witness for claim C9 at a concrete junction of two plain fragments. -/
theorem claim_C9_witness :
    strContains
      ("hi\n" ++ strJoin (renderItemParts (some "hi\n")
        (some (effectiveSource ({ filepath := "a.txt", ranges := [], content := "hi\n",
                                  is_bundle := false, original_source := none } : FileContent)))
        ({ filepath := "b.txt", ranges := [], content := "bee", is_bundle := false,
           original_source := none } : FileContent) false)) "\n\n" = true :=
  claim_C9.2 "hi\n"
    ({ filepath := "a.txt", ranges := [], content := "hi\n", is_bundle := false,
       original_source := none } : FileContent)
    ({ filepath := "b.txt", ranges := [], content := "bee", is_bundle := false,
       original_source := none } : FileContent) false rfl rfl (by decide) (by decide)

/-! ## Claim C6: amended -/

/-- Claim C6 amended: relative to the previous fragment, the code header
condition (falsy original_source and a filepath differing from the
previous effective source) coincides with the claim condition stated on
effective source paths; when it holds the emitted parts carry the header
consisting of a hash mark and the plain basename of the fragment path
(not the nice-stylized title); when it fails no header part is emitted,
only the content and its closing newline. -/
theorem claim_C6_amended :
    (∀ item prevItem : FileContent,
      headerCond (some (effectiveSource prevItem)) item
        = (!(pyTruthy item.original_source)
            && !(effectiveSource item == effectiveSource prevItem)))
    ∧ (∀ (lastPart prev : Option String) (item : FileContent) (ln : Bool),
        headerCond prev item = true →
        ("# " ++ pyBasename item.filepath ++ "\n\n") ∈ renderItemParts lastPart prev item ln)
    ∧ (∀ (lastPart prev : Option String) (item : FileContent) (ln : Bool),
        headerCond prev item = false →
        renderItemParts lastPart prev item ln
          = [if ln then format_with_line_numbers item.content else item.content]
            ++ (if strEndsWith
                  (if ln then format_with_line_numbers item.content else item.content) "\n"
                then [] else ["\n"])) := by
  refine ⟨?_, ?_, ?_⟩
  · intro item prevItem
    unfold headerCond effectiveSource
    cases h : item.original_source with
    | none => simp [pyTruthy]
    | some s =>
      by_cases hs : s = ""
      · subst hs
        simp [pyTruthy]
      · have hs2 : (s == "") = false := by simpa using hs
        simp [pyTruthy, hs2]
  · intro lastPart prev item ln hcond
    unfold renderItemParts
    rw [hcond]
    simp
  · intro lastPart prev item ln hcond
    unfold renderItemParts
    rw [hcond]
    simp

/-- Witness for claim C6 amended: a fresh fragment after a different
source gets the hash-basename header. -/
theorem claim_C6_amended_witness :
    ("# " ++ pyBasename "b.txt" ++ "\n\n") ∈ renderItemParts (some "hi\n") (some "a.txt")
      ({ filepath := "b.txt", ranges := [], content := "bee", is_bundle := false,
         original_source := none } : FileContent) false :=
  claim_C6_amended.2.1 (some "hi\n") (some "a.txt")
    ({ filepath := "b.txt", ranges := [], content := "bee", is_bundle := false,
       original_source := none } : FileContent) false (by decide)

/-! ## Claim C5: amended invariant -/

/-- Range validation only accepts well-formed ranges. -/
theorem validateRange_wf (s : Int) (e : Option Int) (r : LRange)
    (h : validateRange s e = .ok r) : 1 ≤ r.1 ∧ ∀ x : Int, r.2 = some x → r.1 ≤ x := by
  unfold validateRange at h
  by_cases hs : s < 1
  · rw [if_pos hs] at h
    cases h
  · rw [if_neg hs] at h
    cases e with
    | none =>
      cases h
      exact ⟨by omega, by intro x hx; cases hx⟩
    | some ev =>
      dsimp only at h
      by_cases ho : ev ≠ s ∧ ev < s
      · rw [if_pos ho] at h
        cases h
      · rw [if_neg ho] at h
        cases h
        refine ⟨by omega, ?_⟩
        intro x hx
        cases hx
        by_cases hev : ev = s
        · omega
        · push_neg at ho
          have := ho hev
          omega

/-- Parsed segments are well-formed ranges. -/
theorem parseSegment_wf (seg : String) (r : LRange) (h : parseSegment seg = .ok r) :
    1 ≤ r.1 ∧ ∀ x : Int, r.2 = some x → r.1 ≤ x := by
  unfold parseSegment at h
  cases hsp : pySplitFirst seg '-' with
  | none =>
    rw [hsp] at h
    cases hti : pyToInt (pyStrip seg) with
    | none => rw [hti] at h; cases h
    | some n => rw [hti] at h; exact validateRange_wf _ _ _ h
  | some ab =>
    obtain ⟨a, b⟩ := ab
    rw [hsp] at h
    dsimp only at h
    cases hta : pyToInt (pyStrip a) with
    | none => rw [hta] at h; cases h
    | some s =>
      rw [hta] at h
      dsimp only at h
      by_cases hb : pyStrip b == ""
      · rw [if_pos hb] at h
        exact validateRange_wf _ _ _ h
      · rw [if_neg hb] at h
        cases htb : pyToInt (pyStrip b) with
        | none => rw [htb] at h; cases h
        | some e => rw [htb] at h; exact validateRange_wf _ _ _ h

/-- The segment loop only returns well-formed range lists. -/
theorem parseRangeSegments_wf (parts : List String) (rs : List LRange)
    (h : parseRangeSegments parts = .ok rs) : RangesOk rs := by
  induction parts generalizing rs with
  | nil =>
    cases h
    intro r hr
    cases hr
  | cons part rest ih =>
    simp only [parseRangeSegments] at h
    by_cases hb : pyStrip part == ""
    · rw [if_pos hb] at h
      exact ih rs h
    · rw [if_neg hb] at h
      cases hps : parseSegment (pyStrip part) with
      | error m => rw [hps] at h; cases h
      | ok r =>
        rw [hps] at h
        cases hrec : parseRangeSegments rest with
        | error m => rw [hrec] at h; cases h
        | ok rs2 =>
          rw [hrec] at h
          cases h
          intro x hx
          cases hx with
          | head => exact parseSegment_wf _ _ hps
          | tail _ hmem => exact ih rs2 hrec x hmem

/-- The path parser only returns well-formed range lists. -/
theorem parse_path_and_ranges_wf (p path : String) (rs : List LRange)
    (h : parse_path_and_ranges p = .ok (path, rs)) : RangesOk rs := by
  unfold parse_path_and_ranges at h
  cases hsp : pySplitFirst p ':' with
  | none =>
    rw [hsp] at h
    cases h
    intro r hr
    rw [List.mem_singleton] at hr
    subst hr
    exact ⟨le_refl 1, by intro e he; cases he⟩
  | some ab =>
    obtain ⟨pp, spec⟩ := ab
    rw [hsp] at h
    dsimp only at h
    by_cases hs : spec == ""
    · rw [if_pos hs] at h
      cases h
      intro r hr
      rw [List.mem_singleton] at hr
      subst hr
      exact ⟨le_refl 1, by intro e he; cases he⟩
    · rw [if_neg hs] at h
      cases hseg : parseRangeSegments (pySplitChar spec ',') with
      | error m => rw [hseg] at h; cases h
      | ok rs2 =>
        rw [hseg] at h
        cases rs2 with
        | nil =>
          cases h
          intro r hr
          rw [List.mem_singleton] at hr
          subst hr
          exact ⟨le_refl 1, by intro e he; cases he⟩
        | cons r2 rest2 =>
          cases h
          exact parseRangeSegments_wf _ _ hseg

/-- Resolved descriptors carry well-formed range lists. -/
theorem resolve_files_wf (ps : List String) (fcs : List FileContent)
    (h : resolve_files ps = .ok fcs) : ∀ fc ∈ fcs, RangesOk fc.ranges := by
  induction ps generalizing fcs with
  | nil =>
    cases h
    intro fc hfc
    cases hfc
  | cons p rest ih =>
    simp only [resolve_files] at h
    cases hp : parse_path_and_ranges p with
    | error m => rw [hp] at h; cases h
    | ok pr =>
      obtain ⟨path, rs⟩ := pr
      rw [hp] at h
      cases hrec : resolve_files rest with
      | error e => rw [hrec] at h; cases h
      | ok rest2 =>
        rw [hrec] at h
        cases h
        intro fc hfc
        cases hfc with
        | head => exact parse_path_and_ranges_wf p path rs hp
        | tail _ hmem => exact ih rest2 hrec fc hmem

/-- Gathering content preserves the range lists. -/
theorem gather_content_wf (fs : FS) (ins outs : List FileContent)
    (h : gather_content fs ins = .ok outs) (hin : ∀ i ∈ ins, RangesOk i.ranges) :
    ∀ o ∈ outs, RangesOk o.ranges := by
  induction ins generalizing outs with
  | nil =>
    cases h
    intro o ho
    cases ho
  | cons i rest ih =>
    simp only [gather_content] at h
    cases hfr : fsRead fs i.filepath with
    | none => rw [hfr] at h; cases h
    | some text =>
      rw [hfr] at h
      dsimp only at h
      cases har : apply_ranges (pyReadlines text) i.ranges with
      | error m => rw [har] at h; cases h
      | ok content =>
        rw [har] at h
        cases hrec : gather_content fs rest with
        | error e => rw [hrec] at h; cases h
        | ok rest2 =>
          rw [hrec] at h
          cases h
          intro o ho
          cases ho with
          | head => exact hin i (by simp)
          | tail _ hmem =>
            exact ih rest2 hrec (fun x hx => hin x (List.mem_cons_of_mem _ hx)) o hmem

/-- Appending a good fragment preserves the invariant. -/
theorem AllGood_append (doc : Document) (f : FileContent) (hdoc : AllGood doc)
    (hf : GoodFrag f) : AllGood (doc ++ [f]) := by
  intro g hg
  rw [List.mem_append, List.mem_singleton] at hg
  cases hg with
  | inl h => exact hdoc g h
  | inr h => subst h; exact hf

/-- Literal-run fragments satisfy the invariant (empty ranges). -/
theorem literalFrag_good (bp : String) (cur : List String) :
    GoodFrag (mkLiteralFragment bp cur) :=
  ⟨rfl, by intro r hr; cases hr⟩

/-- Inline error fragments satisfy the invariant. -/
theorem inlineErrFrag_good (pb ref : String) : GoodFrag (inlineErrFragment pb ref) :=
  ⟨rfl, by intro r hr; cases hr⟩

/-- Include error fragments satisfy the invariant. -/
theorem includeErrFrag_good (pb ref : String) : GoodFrag (includeErrFragment pb ref) :=
  ⟨rfl, by intro r hr; cases hr⟩

/-- Flushing the current literal run preserves the invariant. -/
theorem AllGood_flush (bp : String) (cur : List String) (doc : Document)
    (hdoc : AllGood doc) :
    AllGood (if cur.isEmpty then doc else doc ++ [mkLiteralFragment bp cur]) := by
  by_cases hc : cur.isEmpty
  · rw [if_pos hc]; exact hdoc
  · rw [if_neg hc]; exact AllGood_append _ _ hdoc (literalFrag_good bp cur)

/-- The builder invariant, proved for all five mutually recursive builder
functions simultaneously by induction on the fuel: starting from a good
document, and for well-formed direct inputs, every document reachable on
the success or the error side consists of non-bundle fragments with
well-formed (possibly empty) range lists. -/
theorem builder_inv (n : Nat) :
    (∀ (fs : FS) (fc : FileContent) (doc : Document) (processed : List String)
        (parent : Option String), AllGood doc → RangesOk fc.ranges →
      AllGood (docOf (process_content n fs fc doc processed parent)))
    ∧ (∀ (fs : FS) (bp : String) (lines cur : List String) (doc : Document)
        (processed : List String), AllGood doc →
      AllGood (docOf (processBundleLines n fs bp lines cur doc processed)))
    ∧ (∀ (fs : FS) (ip basePath : String) (doc : Document) (processed : List String)
        (pb : String), AllGood doc →
      AllGood (docOf (process_inline_directive n fs ip basePath doc processed pb)))
    ∧ (∀ (fs : FS) (ip basePath : String) (doc : Document) (processed : List String)
        (pb : String), AllGood doc →
      AllGood (docOf (process_include_directive n fs ip basePath doc processed pb)))
    ∧ (∀ (fs : FS) (items : List FileContent) (doc : Document) (processed : List String)
        (parent : Option String), AllGood doc → (∀ i ∈ items, RangesOk i.ranges) →
      AllGood (docOf (processItems n fs items doc processed parent))) := by
  induction n with
  | zero =>
    refine ⟨?_, ?_, ?_, ?_, ?_⟩
    · intro fs fc doc processed parent hdoc _
      exact hdoc
    · intro fs bp lines cur doc processed hdoc
      exact hdoc
    · intro fs ip basePath doc processed pb hdoc
      exact hdoc
    · intro fs ip basePath doc processed pb hdoc
      exact hdoc
    · intro fs items doc processed parent hdoc _
      exact hdoc
  | succ n ih =>
    obtain ⟨ihA, ihB, ihC, ihD, ihE⟩ := ih
    refine ⟨?_, ?_, ?_, ?_, ?_⟩
    · -- process_content
      intro fs fc doc processed parent hdoc hrfc
      simp only [process_content]
      by_cases hmem : fc.filepath ∈ processed
      · rw [if_pos hmem]
        exact hdoc
      · rw [if_neg hmem]
        cases hb : fc.is_bundle with
        | false => exact AllGood_append doc fc hdoc ⟨hb, hrfc⟩
        | true =>
          exact ihB fs fc.filepath (pySplitlines fc.content) [] doc
            (fc.filepath :: processed) hdoc
    · -- processBundleLines
      intro fs bp lines cur doc processed hdoc
      simp only [processBundleLines]
      cases lines with
      | nil => exact AllGood_flush bp cur doc hdoc
      | cons line rest =>
        dsimp only
        cases him : matchDirective "@inline" (pyStrip line) with
        | some arg =>
          dsimp only
          have hD2 := AllGood_flush bp cur doc hdoc
          have h3 := ihC fs arg (pyDirname bp)
            (if cur.isEmpty then doc else doc ++ [mkLiteralFragment bp cur]) processed bp hD2
          cases hpid : process_inline_directive n fs arg (pyDirname bp)
              (if cur.isEmpty then doc else doc ++ [mkLiteralFragment bp cur]) processed bp with
          | error e =>
            rw [hpid] at h3
            exact h3
          | ok doc3 =>
            rw [hpid] at h3
            exact ihB fs bp rest [] doc3 processed h3
        | none =>
          dsimp only
          cases him2 : matchDirective "@include" (pyStrip line) with
          | some arg =>
            dsimp only
            have hD2 := AllGood_flush bp cur doc hdoc
            have h4 := ihD fs arg (pyDirname bp)
              (if cur.isEmpty then doc else doc ++ [mkLiteralFragment bp cur]) processed bp hD2
            cases hpid : process_include_directive n fs arg (pyDirname bp)
                (if cur.isEmpty then doc else doc ++ [mkLiteralFragment bp cur]) processed bp with
            | error e =>
              rw [hpid] at h4
              exact h4
            | ok doc3 =>
              rw [hpid] at h4
              exact ihB fs bp rest [] doc3 processed h4
          | none =>
            exact ihB fs bp rest (cur ++ [line]) doc processed hdoc
    · -- process_inline_directive
      intro fs ip basePath doc processed pb hdoc
      simp only [process_inline_directive]
      cases hres : resolve_files [if pyIsAbs ip then ip else pyJoin basePath ip] with
      | error e =>
        exact hdoc
      | ok inlinedFiles =>
        dsimp only
        cases hemp : inlinedFiles.isEmpty with
        | true =>
          exact AllGood_append doc _ hdoc (inlineErrFrag_good pb ip)
        | false =>
          simp only [Bool.false_eq_true, if_false]
          cases hg : gather_content fs inlinedFiles with
          | error e =>
            cases e with
            | notFound m => exact AllGood_append doc _ hdoc (inlineErrFrag_good pb ip)
            | circular m => exact hdoc
            | invalid m => exact hdoc
            | fuelOut => exact hdoc
          | ok items =>
            dsimp only
            have hitems : ∀ i ∈ items.map
                (fun c => { c with original_source := some pb }), RangesOk i.ranges := by
              intro i hi
              rw [List.mem_map] at hi
              obtain ⟨c, hc, rfl⟩ := hi
              exact gather_content_wf fs inlinedFiles items hg
                (resolve_files_wf _ _ hres) c hc
            have h5 := ihE fs (items.map (fun c => { c with original_source := some pb }))
              doc processed (some pb) hdoc hitems
            cases hpi : processItems n fs
                (items.map (fun c => { c with original_source := some pb }))
                doc processed (some pb) with
            | error e =>
              rw [hpi] at h5
              obtain ⟨pe, pd⟩ := e
              cases pe with
              | notFound m => exact AllGood_append pd _ h5 (inlineErrFrag_good pb ip)
              | circular m => exact h5
              | invalid m => exact h5
              | fuelOut => exact h5
            | ok doc2 =>
              rw [hpi] at h5
              exact h5
    · -- process_include_directive
      intro fs ip basePath doc processed pb hdoc
      simp only [process_include_directive]
      cases hres : resolve_files [if pyIsAbs ip then ip else pyJoin basePath ip] with
      | error e =>
        exact hdoc
      | ok includedFiles =>
        dsimp only
        cases hemp : includedFiles.isEmpty with
        | true =>
          exact AllGood_append doc _ hdoc (includeErrFrag_good pb ip)
        | false =>
          simp only [Bool.false_eq_true, if_false]
          cases hg : gather_content fs includedFiles with
          | error e =>
            cases e with
            | notFound m => exact AllGood_append doc _ hdoc (includeErrFrag_good pb ip)
            | circular m => exact hdoc
            | invalid m => exact hdoc
            | fuelOut => exact hdoc
          | ok items =>
            dsimp only
            have hitems : ∀ i ∈ items, RangesOk i.ranges := by
              intro i hi
              exact gather_content_wf fs includedFiles items hg
                (resolve_files_wf _ _ hres) i hi
            have h5 := ihE fs items doc processed (some pb) hdoc hitems
            cases hpi : processItems n fs items doc processed (some pb) with
            | error e =>
              rw [hpi] at h5
              obtain ⟨pe, pd⟩ := e
              cases pe with
              | notFound m => exact AllGood_append pd _ h5 (includeErrFrag_good pb ip)
              | circular m => exact h5
              | invalid m => exact h5
              | fuelOut => exact h5
            | ok doc2 =>
              rw [hpi] at h5
              exact h5
    · -- processItems
      intro fs items doc processed parent hdoc hitems
      simp only [processItems]
      cases items with
      | nil => exact hdoc
      | cons i rest =>
        dsimp only
        have h1 := ihA fs i doc processed parent hdoc (hitems i (by simp))
        cases hpc : process_content n fs i doc processed parent with
        | error e =>
          rw [hpc] at h1
          exact h1
        | ok doc2 =>
          rw [hpc] at h1
          exact ihE fs rest doc2 processed parent h1
            (fun x hx => hitems x (List.mem_cons_of_mem _ hx))

/-- Claim C5 amended: in every document the builder returns, every
fragment has is_bundle false, and every range present in a fragment has
start at least one and, when the end is explicit, end at least start —
but the ranges list itself may be empty (it is empty for every fragment
synthesized during bundle expansion), provided every input descriptor has
well-formed ranges, as those produced by the resolver do. -/
theorem claim_C5_amended (fuel : Nat) (fs : FS) (inputs frags : List FileContent)
    (hin : ∀ fc ∈ inputs, RangesOk fc.ranges)
    (hbuild : build_document fuel fs inputs = .ok frags) :
    ∀ f ∈ frags, f.is_bundle = false ∧ RangesOk f.ranges := by
  have h := (builder_inv fuel).2.2.2.2 fs inputs [] [] none (by intro f hf; cases hf) hin
  unfold build_document at hbuild
  rw [hbuild] at h
  exact h

/-- Witness for claim C5 amended: the error fragment of the
missing-inline scenario is a non-bundle with well-formed (empty) ranges. -/
theorem claim_C5_amended_witness :
    ({ filepath := "/b.ndoc", ranges := [],
       content := "ERROR: Could not find inlined file: missing.txt\n",
       is_bundle := false, original_source := some "/b.ndoc" } : FileContent).is_bundle = false
    ∧ RangesOk
        ({ filepath := "/b.ndoc", ranges := [],
           content := "ERROR: Could not find inlined file: missing.txt\n",
           is_bundle := false, original_source := some "/b.ndoc" } : FileContent).ranges :=
  claim_C5_amended 50 [("/b.ndoc", "Header\n@inline missing.txt\nFooter\n")]
    [({ filepath := "/b.ndoc", ranges := [((1 : Int), none)],
        content := "Header\n@inline missing.txt\nFooter\n", is_bundle := true,
        original_source := none } : FileContent)]
    [({ filepath := "/b.ndoc", ranges := [], content := "Header\n", is_bundle := false,
        original_source := some "/b.ndoc" } : FileContent),
     ({ filepath := "/b.ndoc", ranges := [],
        content := "ERROR: Could not find inlined file: missing.txt\n",
        is_bundle := false, original_source := some "/b.ndoc" } : FileContent),
     ({ filepath := "/b.ndoc", ranges := [], content := "Footer\n", is_bundle := false,
        original_source := some "/b.ndoc" } : FileContent)]
    (by
      intro fc hfc
      rw [List.mem_singleton] at hfc
      subst hfc
      intro r hr
      rw [List.mem_singleton] at hr
      subst hr
      exact ⟨le_refl 1, by intro e he; cases he⟩)
    (by decide) _ (by simp)
